import Mathlib

/-!
# encrypted-messenger: a shallow embedding and its verified properties

The Go packages `types`, `server`, `client` and `utils` are embedded as pure
functions over explicit state.

* A Go `string` is a sequence of bytes, so `[]byte(s)` and `string(b)` are the
  identity on `GoString`.
* A Go `map` is a finite list of entries with pairwise distinct keys.  Go leaves
  the iteration order of `range` unspecified; here `range` walks the entries in
  list order, and every theorem quantifies over all maps, hence over all orders.
* Mutexes are left out: the embedding is sequential.
* A method with a pointer receiver that mutates its receiver returns the new
  receiver next to its Go results.
* The packages outside the repository (`crypto/rsa`, `encoding/base64`,
  `encoding/json`, `encoding/pem`, `crypto/x509`, `bcrypt`, `jwx/jwk`) are the
  fields of `Libs`; what a theorem needs of them is a hypothesis of that theorem.
* An HTTP exchange is a call of the handler registered for the path of the
  request: method, path, query and body arrive as sent, the Basic credentials
  arrive as `BasicAuth()` reads what `SetBasicAuth` wrote, the network does not
  fail, and the response is what the handler wrote.
* The files of the client machine are a `FileSystem`: opening, creating and
  writing a file can fail, and the functions that touch files return the files
  afterwards next to their Go results.
* A Go function that can panic returns an `Option`, with `none` for the panic.
* Logging is left out.
-/

namespace Messenger

/-! ## Go base types -/

/-- A Go `string` (equally a `[]byte`): a finite sequence of bytes. -/
abbrev GoString := List (Fin 256)

/-- The Go string literal spelled by an ASCII Lean literal. -/
def ascii (s : String) : GoString := s.toList.map (fun c => Fin.ofNat c.toNat)

/-- A Go `map[κ]ν`: finitely many entries, no key twice. -/
structure GoMap (κ : Type) (ν : Type) where
  entries : List (κ × ν)
  nodup : (entries.map Prod.fst).Nodup

namespace GoMap

variable {κ ν : Type} [DecidableEq κ]

/-- Go `make(map[κ]ν)`. -/
def empty : GoMap κ ν := ⟨[], List.nodup_nil⟩

/-- Go `v, ok := m[k]`: `some v` when `ok`, `none` otherwise. -/
def get? (m : GoMap κ ν) (k : κ) : Option ν := m.entries.lookup k

/-- Go `delete(m, k)`. -/
def delete (m : GoMap κ ν) (k : κ) : GoMap κ ν :=
  ⟨m.entries.filter (fun e => !decide (e.1 = k)),
   List.Nodup.sublist ((List.filter_sublist _).map _) m.nodup⟩

/-- Go `m[k] = v`. -/
def set (m : GoMap κ ν) (k : κ) (v : ν) : GoMap κ ν :=
  ⟨(k, v) :: m.entries.filter (fun e => !decide (e.1 = k)), by
    rw [List.map_cons, List.nodup_cons]
    refine ⟨?_, List.Nodup.sublist ((List.filter_sublist _).map _) m.nodup⟩
    intro h
    obtain ⟨e, he, hk⟩ := List.mem_map.1 h
    have := (List.mem_filter.1 he).2
    simp at this
    exact this hk⟩

/-- Go `len(m)`. -/
def len (m : GoMap κ ν) : Nat := m.entries.length

/-- The values a Go `range` over `m` visits, one for each key. -/
def values (m : GoMap κ ν) : List ν := m.entries.map Prod.snd

end GoMap

/-! ## Package `types` -/

/-- Go `types.MessageID` (a `string`). -/
abbrev MessageID := GoString

/-- Go `types.Message`; `server.Message` and `client.ClientMessage` are defined
types over it with the same fields.  `TimeSent` is a `time.Time`, kept as an
abstract instant. -/
structure Message where
  From : GoString
  To : GoString
  TimeSent : Nat
  ID : MessageID
  Content : GoString
  Encrypted : Bool
deriving DecidableEq, Repr

/-- Go `client.ClientMessage`. -/
abbrev ClientMessage := Message

/-! ## Go `error` values -/

/-- The values of Go's `error` that the program builds or passes on. -/
inductive Error where
  /-- Go `server.ErrDuplicateID`. -/
  | ErrDuplicateID (ID : MessageID) (Action : GoString)
  /-- Go `server.ErrKeyDoesNotExist`. -/
  | ErrKeyDoesNotExist (key : GoString)
  /-- Go `server.ErrKeyAlreadyExists`. -/
  | ErrKeyAlreadyExists (key : GoString)
  /-- Go `server.ErrUserAlreadyExists`. -/
  | ErrUserAlreadyExists (Username : GoString)
  /-- Go `server.ErrUserDoesNotExist`. -/
  | ErrUserDoesNotExist (Username : GoString)
  /-- Go `errors.New(text)`. -/
  | errorString (text : GoString)
  /-- An error value produced inside a package outside the repository. -/
  | library (text : GoString)
deriving DecidableEq, Repr

/-! ## Package `server`: the message store (`messagestore.go`) -/

/-- Go `server.MemoryMessageStore`. -/
structure MemoryMessageStore where
  messages : GoMap MessageID Message

/-- Go `server.MakeMemoryMessageStore`. -/
def MakeMemoryMessageStore : MemoryMessageStore := ⟨GoMap.empty⟩

namespace MemoryMessageStore

/-- Go `(*MemoryMessageStore).Add`: the returned error and the store afterwards. -/
def Add (store : MemoryMessageStore) (message : Message) :
    Option Error × MemoryMessageStore :=
  match store.messages.get? message.ID with
  | some _ => (some (Error.ErrDuplicateID message.ID (ascii "Add")), store)
  | none => (none, ⟨store.messages.set message.ID message⟩)

/-- Go `(*MemoryMessageStore).DeleteByID`: the returned error and the store
afterwards. -/
def DeleteByID (store : MemoryMessageStore) (messageID : MessageID) :
    Option Error × MemoryMessageStore :=
  match store.messages.get? messageID with
  | none => (some (Error.ErrKeyDoesNotExist messageID), store)
  | some _ => (none, ⟨store.messages.delete messageID⟩)

/-- Go `(*MemoryMessageStore).FindReceivedByUserID`: a `range` over the map that
appends the matching messages to an initially empty slice. -/
def FindReceivedByUserID (store : MemoryMessageStore) (userID : GoString) :
    List Message × Option Error :=
  (store.messages.entries.foldl
    (fun messages e => if e.2.To = userID then messages ++ [e.2] else messages) [], none)

/-- Go `(*MemoryMessageStore).FindSentByUserID`. -/
def FindSentByUserID (store : MemoryMessageStore) (userID : GoString) :
    List Message × Option Error :=
  (store.messages.entries.foldl
    (fun messages e => if e.2.From = userID then messages ++ [e.2] else messages) [], none)

/-- Go `(*MemoryMessageStore).FindAllByUserID`. -/
def FindAllByUserID (store : MemoryMessageStore) (userID : GoString) :
    List Message × Option Error :=
  (store.messages.entries.foldl
    (fun messages e =>
      if e.2.From = userID ∨ e.2.To = userID then messages ++ [e.2] else messages) [], none)

end MemoryMessageStore

/-! ## Packages outside the repository -/

/-- Go `(*big.Int).BitLen` on a natural number: the length of its binary
representation. -/
def bitLen (n : Nat) : Nat := Nat.size n

/-- Go `rsa.PublicKey`. -/
structure PublicKey where
  N : Nat
  E : Nat
deriving DecidableEq, Repr

/-- Go `(*rsa.PublicKey).Size`: the modulus size in bytes. -/
def PublicKey.Size (pub : PublicKey) : Nat := (bitLen pub.N + 7) / 8

/-- Go `rsa.PrivateKey`; the public key is an embedded field. -/
structure PrivateKey where
  PublicKey : PublicKey
  D : Nat
  Primes : List Nat
deriving DecidableEq, Repr

/-- Go `jwk.RSAPublicKey`: the parameters `n` and `e` of a JSON Web Key. -/
structure RSAPublicJWK where
  n : GoString
  e : GoString
deriving DecidableEq, Repr

/-- Go `jwk.Key`: an RSA public key, or a key of another kind (`kty`). -/
inductive JWK where
  | RSAPublicKey (key : RSAPublicJWK)
  | other (kty : GoString)
deriving DecidableEq, Repr

/-- Go `pem.Block`: its type line and its decoded bytes (the program sets and
reads no headers). -/
structure Block where
  Type_ : GoString
  Bytes : GoString
deriving DecidableEq, Repr

/-- The bytes a random source hands out, in order (`crypto/rand.Reader`,
`math/rand`). -/
abbrev Entropy := Nat → Fin 256

/-- The functions of packages outside the repository that the program calls.
They are parameters of the embedding. -/
structure Libs where
  /-- Go `rsa.EncryptPKCS1v15(random, pub, msg)`. -/
  EncryptPKCS1v15 : Entropy → PublicKey → GoString → Except Error GoString
  /-- Go `rsa.DecryptPKCS1v15(random, priv, ciphertext)`; `random` only blinds. -/
  DecryptPKCS1v15 : PrivateKey → GoString → Except Error GoString
  /-- Go `base64.URLEncoding.EncodeToString`. -/
  EncodeToString : GoString → GoString
  /-- Go `base64.URLEncoding.DecodeString`. -/
  DecodeString : GoString → Except Error GoString
  /-- Go `bcrypt.GenerateFromPassword(password, cost)`; the salt is drawn from
  the random source. -/
  GenerateFromPassword : Entropy → GoString → Nat → Except Error GoString
  /-- Go `bcrypt.CompareHashAndPassword(hashedPassword, password)`. -/
  CompareHashAndPassword : GoString → GoString → Option Error
  /-- Go `jwk.ParseKey`. -/
  ParseKey : GoString → Except Error JWK
  /-- Go `key.Raw(&rsaKey)` with `rsaKey` an `rsa.PublicKey`. -/
  Raw : JWK → Except Error PublicKey
  /-- Go `jwk.New` on an `*rsa.PublicKey`. -/
  New : PublicKey → Except Error JWK
  /-- Go `json.Marshal` on a `jwk.RSAPublicKey`. -/
  MarshalJWK : RSAPublicJWK → Except Error GoString
  /-- Go `rsa.GenerateKey(random, bits)`. -/
  GenerateKey : Entropy → Nat → Except Error PrivateKey
  /-- Go `x509.MarshalPKCS1PrivateKey`. -/
  MarshalPKCS1PrivateKey : PrivateKey → GoString
  /-- Go `x509.MarshalPKCS1PublicKey`. -/
  MarshalPKCS1PublicKey : PublicKey → GoString
  /-- Go `x509.ParsePKCS1PrivateKey`. -/
  ParsePKCS1PrivateKey : GoString → Except Error PrivateKey
  /-- Go `pem.Decode(data)`: `none` when it returns no block; otherwise the block
  and `n`, where the `rest` it returns is `data` without its first `n + 1` bytes
  (a block takes at least one byte, and `rest` is what follows it). -/
  PEMDecode : GoString → Option (Block × Nat)
  /-- The bytes that Go `pem.Encode(out, block)` writes to `out`. -/
  PEMEncode : Block → GoString
  /-- Go `url.Parse(rawurl)` as `http.NewRequest` calls it: the path of the URL,
  or the error of the parser. -/
  URLPath : GoString → Except Error GoString
  /-- Go `Status` of an `http.Response` with the given code, e.g. "200 OK". -/
  Status : Nat → GoString
  /-- Go `json.Marshal` on a `ClientMessage`. -/
  MarshalMessage : Message → Except Error GoString
  /-- Go `json.NewDecoder(body).Decode(&message)` for a `Message`. -/
  DecodeMessage : GoString → Except Error Message
  /-- Go `json.NewEncoder(w).Encode(messages)`: the bytes it writes. -/
  EncodeMessages : List Message → Except Error GoString
  /-- Go `json.NewDecoder(body).Decode(&messages)` for a `[]ClientMessage`. -/
  DecodeMessages : GoString → Except Error (List Message)

/-! ## Package `utils` (`jwk.go`) -/

/-- Go `utils.MakeJWKSetFromRSAPublicKey`. -/
def MakeJWKSetFromRSAPublicKey (L : Libs) (publicKey : PublicKey) : Except Error RSAPublicJWK :=
  match L.New publicKey with
  | .error err => .error err
  | .ok (JWK.RSAPublicKey jwkRSAKey) => .ok jwkRSAKey
  | .ok _ =>
    .error (Error.errorString (ascii "rsa public key could not be cast to jwk public key"))

/-- Go `utils.MakePublicKeyFromJWK`. -/
def MakePublicKeyFromJWK (L : Libs) (key : JWK) : Except Error PublicKey :=
  match L.Raw key with
  | .error err => .error err
  | .ok rsaKey => .ok rsaKey

/-! ## Package `server`: users (`user.go`) -/

/-- Go `server.User`; `Password` holds the bcrypt hash. -/
structure User where
  Username : GoString
  Password : GoString
  Email : GoString
deriving DecidableEq, Repr

/-- Go `bcrypt.DefaultCost`. -/
def DefaultCost : Nat := 10

/-- Go `server.encodePassword`; `none` is its panic on an error of bcrypt. -/
def encodePassword (L : Libs) (random : Entropy) (password : GoString) : Option GoString :=
  match L.GenerateFromPassword random password DefaultCost with
  | .error _ => none
  | .ok encrytedPassword => some encrytedPassword

/-- Go `server.MakeUser`; `none` is the panic of `encodePassword`. -/
def MakeUser (L : Libs) (random : Entropy) (username password email : GoString) :
    Option User :=
  match encodePassword L random password with
  | none => none
  | some encrpytedPassword =>
    some { Username := username, Password := encrpytedPassword, Email := email }

/-- Go `server.validatePassword`. -/
def validatePassword (L : Libs) (plaintext : GoString) (encryptedText : GoString) : Bool :=
  (L.CompareHashAndPassword encryptedText plaintext).isNone

/-- Go `User.Authenticate`. -/
def User.Authenticate (L : Libs) (user : User) (password : GoString) : Bool :=
  validatePassword L password user.Password

/-- Go `server.MemoryUserStore`. -/
structure MemoryUserStore where
  users : GoMap GoString User

/-- Go `server.MakeMemoryUserStore`. -/
def MakeMemoryUserStore : MemoryUserStore := ⟨GoMap.empty⟩

namespace MemoryUserStore

/-- Go `(*MemoryUserStore).Add`. -/
def Add (us : MemoryUserStore) (user : User) : Option Error × MemoryUserStore :=
  match us.users.get? user.Username with
  | some _ => (some (Error.ErrUserAlreadyExists user.Username), us)
  | none => (none, ⟨us.users.set user.Username user⟩)

/-- Go `(*MemoryUserStore).Delete`. -/
def Delete (us : MemoryUserStore) (user : User) : Option Error × MemoryUserStore :=
  match us.users.get? user.Username with
  | some _ => (some (Error.ErrUserDoesNotExist user.Username), us)
  | none => (none, ⟨us.users.delete user.Username⟩)

/-- Go `(*MemoryUserStore).Find`; on a miss Go returns `User{}` next to the error. -/
def Find (us : MemoryUserStore) (username : GoString) : Except Error User :=
  match us.users.get? username with
  | some u => .ok u
  | none => .error (Error.ErrUserDoesNotExist username)

end MemoryUserStore

/-! ## Package `server`: the key directory (`userkeystore.go`) -/

/-- Go `server.MemoryUserKeystore`. -/
structure MemoryUserKeystore where
  keys : GoMap GoString PublicKey

/-- Go `server.MakeMemoryUserKeystore`. -/
def MakeMemoryUserKeystore : MemoryUserKeystore := ⟨GoMap.empty⟩

namespace MemoryUserKeystore

/-- Go `MemoryUserKeystore.PublicKeyByUserID`. -/
def PublicKeyByUserID (keystore : MemoryUserKeystore) (userID : GoString) :
    Except Error PublicKey :=
  match keystore.keys.get? userID with
  | some key => .ok key
  | none => .error (Error.ErrKeyDoesNotExist userID)

/-- Go `MemoryUserKeystore.AddPublicKey`. -/
def AddPublicKey (L : Libs) (keystore : MemoryUserKeystore) (userID : GoString)
    (publicKey : RSAPublicJWK) : Option Error × MemoryUserKeystore :=
  match keystore.keys.get? userID with
  | some _ => (some (Error.ErrKeyAlreadyExists userID), keystore)
  | none =>
    match MakePublicKeyFromJWK L (JWK.RSAPublicKey publicKey) with
    | .error err => (some err, keystore)
    | .ok rsaKey => (none, ⟨keystore.keys.set userID rsaKey⟩)

/-- Go `MemoryUserKeystore.DeletePublicKeyByUserID`. -/
def DeletePublicKeyByUserID (keystore : MemoryUserKeystore) (userID : GoString) :
    Option Error × MemoryUserKeystore :=
  match keystore.keys.get? userID with
  | some _ => (none, ⟨keystore.keys.delete userID⟩)
  | none => (some (Error.ErrKeyDoesNotExist userID), keystore)

end MemoryUserKeystore

/-! ## Package `types` (`message.go`, `userregisterrequest.go`) -/

/-- Go `types.MessageIDSize`. -/
def MessageIDSize : Nat := 64

/-- Go `types.MakeMessageID`: `MessageIDSize` bytes of `math/rand`, whose `Read`
never fails, in base64url. -/
def MakeMessageID (L : Libs) (random : Entropy) : MessageID :=
  L.EncodeToString ((List.range MessageIDSize).map random)

/-- Go `types.MakeMessage`; `now` is what `time.Now()` returns. -/
def MakeMessage (L : Libs) (now : Nat) (random : Entropy)
    (from_ : GoString) (to_ : GoString) (content : GoString) : Message :=
  { From := from_
    To := to_
    TimeSent := now
    ID := MakeMessageID L random
    Content := content
    Encrypted := false }

/-- Go `types.UserRegisterRequest`. -/
structure UserRegisterRequest where
  UserID : GoString
  PublicKey : RSAPublicJWK

/-! ## Package `net/http`, as far as the program uses it -/

/-- Go `http.Request` on the server side, and what a client puts into one.
`Query` is `r.URL.Query()`, `BasicAuth` is what `r.BasicAuth()` returns (`none`
for `ok == false`), `Body` the bytes read from `r.Body`, `Principal` the value
of the request context under `principalKey`. -/
structure Request where
  Method : GoString
  Path : GoString
  Query : List (GoString × GoString)
  BasicAuth : Option (GoString × GoString)
  Body : GoString
  Principal : Option User

/-- Go `r.URL.Query().Get(key)`: the first value of `key`, or the empty string. -/
def Request.QueryGet (r : Request) (key : GoString) : GoString :=
  (r.Query.lookup key).getD []

/-- The byte `:`. -/
def colon : Fin 256 := 58

/-- Go `strings.Cut(s, ":")`: the text before the first colon and the text after
it, or `none` when `s` has no colon. -/
def cutColon : GoString → Option (GoString × GoString)
  | [] => none
  | b :: rest =>
    if b = colon then some ([], rest)
    else
      match cutColon rest with
      | none => none
      | some (before, after) => some (b :: before, after)

/-- Go `r.SetBasicAuth(username, password)` on the request a client sends, as
`r.BasicAuth()` reads it on the server: the header carries the base64 text of
`username + ":" + password`, and `BasicAuth()` decodes it and cuts it at the first
colon. -/
def Request.SetBasicAuth (r : Request) (username : GoString) (password : GoString) :
    Request :=
  { r with BasicAuth := cutColon (username ++ colon :: password) }

/-- Go `http.NewRequest(method, url, body)` for one of the methods the clients
use: it fails when the URL does not parse; the request has the path of the URL,
no credentials yet and the query the client then sets. -/
def NewRequest (L : Libs) (method : GoString) (url : GoString) (body : GoString) :
    Except Error Request :=
  match L.URLPath url with
  | .error err => .error err
  | .ok path =>
    .ok { Method := method, Path := path, Query := [], BasicAuth := none, Body := body,
          Principal := none }

/-- Go `http.ResponseWriter`: the headers added, the status written (`none`
until the first `WriteHeader` or `Write`) and the body written. -/
structure ResponseWriter where
  Header : List (GoString × GoString)
  Status : Option Nat
  Body : GoString
deriving DecidableEq, Repr

namespace ResponseWriter

/-- The writer a handler starts with. -/
def fresh : ResponseWriter := ⟨[], none, []⟩

/-- Go `w.WriteHeader(code)`; only the first call counts. -/
def WriteHeader (w : ResponseWriter) (code : Nat) : ResponseWriter :=
  if w.Status.isSome then w else { w with Status := some code }

/-- Go `w.Write(data)`; writes status 200 first when none was written. -/
def Write (w : ResponseWriter) (data : GoString) : ResponseWriter :=
  { (w.WriteHeader 200) with Body := w.Body ++ data }

/-- Go `w.Header().Add(key, value)`; headers added after the status do not
reach the client. -/
def HeaderAdd (w : ResponseWriter) (key : GoString) (value : GoString) : ResponseWriter :=
  if w.Status.isSome then w else { w with Header := w.Header ++ [(key, value)] }

/-- Go `w.Header().Del(key)`. -/
def HeaderDel (w : ResponseWriter) (key : GoString) : ResponseWriter :=
  if w.Status.isSome then w
  else { w with Header := w.Header.filter (fun h => !decide (h.1 = key)) }

/-- Go `w.Header().Set(key, value)`. -/
def HeaderSet (w : ResponseWriter) (key : GoString) (value : GoString) : ResponseWriter :=
  (w.HeaderDel key).HeaderAdd key value

/-- The status code the client receives: 200 when the handler wrote none. -/
def StatusCode (w : ResponseWriter) : Nat := w.Status.getD 200

end ResponseWriter

/-- Go `http.StatusOK`. -/
def StatusOK : Nat := 200
/-- Go `http.StatusCreated`. -/
def StatusCreated : Nat := 201
/-- Go `http.StatusNoContent`. -/
def StatusNoContent : Nat := 204
/-- Go `http.StatusBadRequest`. -/
def StatusBadRequest : Nat := 400
/-- Go `http.StatusUnauthorized`. -/
def StatusUnauthorized : Nat := 401
/-- Go `http.StatusNotFound`. -/
def StatusNotFound : Nat := 404
/-- Go `http.StatusMethodNotAllowed`. -/
def StatusMethodNotAllowed : Nat := 405
/-- Go `http.StatusInternalServerError`. -/
def StatusInternalServerError : Nat := 500

/-- Go `http.MethodGet`. -/
def MethodGet : GoString := ascii "GET"
/-- Go `http.MethodPost`. -/
def MethodPost : GoString := ascii "POST"
/-- Go `http.MethodOptions`. -/
def MethodOptions : GoString := ascii "OPTIONS"

/-! ## Package `server`: handlers (`server.go`) -/

/-- Go `server.Server`; the three interface fields hold the in-memory stores,
the only implementations in the repository. -/
structure Server where
  UserStore : MemoryUserStore
  Keystore : MemoryUserKeystore
  MessageStore : MemoryMessageStore

/-- Go `http.Handler`: `ServeHTTP(w, r)` run on the state of the server.  The
result is the writer and the state afterwards, or `none` when the handler
panics (`net/http` recovers the panic and drops the connection). -/
abbrev Handler := ResponseWriter → Request → Server → Option (ResponseWriter × Server)

/-- Go `server.AddUserToContext`, applied to the context of `r`
(`r.WithContext(AddUserToContext(r.Context(), u))`). -/
def AddUserToContext (r : Request) (user : User) : Request :=
  { r with Principal := some user }

/-- Go `server.GetUserFromContext`; `none` is the panic of the type assertion on
a context without principal. -/
def GetUserFromContext (r : Request) : Option User := r.Principal

namespace Server

/-- Go `(*Server).AddUser`.  `r.Body` is what `ioutil.ReadAll` returns; the
handler panics on a body that is no key and on a key that is no
`jwk.RSAPublicKey`. -/
def AddUser (L : Libs) : Handler := fun w r server =>
  if r.Method ≠ MethodPost then
    some (w.WriteHeader StatusMethodNotAllowed, server)
  else
    match L.ParseKey r.Body with
    | .error _ => none
    | .ok (JWK.other _) => none
    | .ok (JWK.RSAPublicKey jwkKey) =>
      match GetUserFromContext r with
      | none => none
      | some user =>
        let registerRequest : UserRegisterRequest :=
          { UserID := user.Username, PublicKey := jwkKey }
        match server.Keystore.AddPublicKey L registerRequest.UserID registerRequest.PublicKey with
        | (some _, keystore) =>
          some (w.WriteHeader StatusInternalServerError, { server with Keystore := keystore })
        | (none, keystore) =>
          some (w.WriteHeader StatusCreated, { server with Keystore := keystore })

/-- Go `(*Server).GetPublicKeyByUser`. -/
def GetPublicKeyByUser (L : Libs) : Handler := fun w r server =>
  let userID := r.QueryGet (ascii "userID")
  if userID = [] then
    some (w.WriteHeader StatusBadRequest, server)
  else
    match server.Keystore.PublicKeyByUserID userID with
    | .error _ => some (w.WriteHeader StatusInternalServerError, server)
    | .ok pubKey =>
      match MakeJWKSetFromRSAPublicKey L pubKey with
      | .error _ => some (w.WriteHeader StatusInternalServerError, server)
      | .ok jwkKey =>
        match L.MarshalJWK jwkKey with
        | .error _ => some (w.WriteHeader StatusInternalServerError, server)
        | .ok data => some (w.Write data, server)

/-- Go `(*Server).AddMessage`. -/
def AddMessage (L : Libs) : Handler := fun w r server =>
  if r.Method ≠ MethodPost then
    some (w.WriteHeader StatusMethodNotAllowed, server)
  else
    match L.DecodeMessage r.Body with
    | .error _ => some (w.WriteHeader StatusBadRequest, server)
    | .ok message =>
      match server.MessageStore.Add message with
      | (some _, store) =>
        some (w.WriteHeader StatusInternalServerError, { server with MessageStore := store })
      | (none, store) => some (w, { server with MessageStore := store })

/-- Go `(*Server).GetMessages`. -/
def GetMessages (L : Libs) : Handler := fun w r server =>
  if r.Method ≠ MethodGet then
    some (w.WriteHeader StatusMethodNotAllowed, server)
  else
    let id := r.QueryGet (ascii "userID")
    match server.MessageStore.FindAllByUserID id with
    | (_, some _) => some (w.WriteHeader StatusInternalServerError, server)
    | (messages, none) =>
      match L.EncodeMessages messages with
      | .error _ => some (w.WriteHeader StatusInternalServerError, server)
      | .ok data => some (w.Write data, server)

end Server

/-- Go `server.mutliMethodHandler`. -/
structure mutliMethodHandler where
  handlers : GoMap GoString Handler

/-- Go `mutliMethodHandler.ServeHTTP`. -/
def mutliMethodHandler.ServeHTTP (handler : mutliMethodHandler) : Handler := fun w r server =>
  match handler.handlers.get? r.Method with
  | some h => h w r server
  | none => some (w.WriteHeader StatusMethodNotAllowed, server)

/-- Go `server.coorsHandler`. -/
structure coorsHandler where
  next : Handler

/-- Go `coorsHandler.ServeHTTP`. -/
def coorsHandler.ServeHTTP (handler : coorsHandler) : Handler := fun w r server =>
  let w := w.HeaderAdd (ascii "Access-Control-Allow-Origin") (ascii "*")
  if r.Method = MethodOptions then
    let w := w.HeaderAdd (ascii "Access-Control-Allow-Methods") (ascii "POST, GET, OPTIONS")
    let w := w.HeaderAdd (ascii "Access-Control-Allow-Headers") (ascii "Content-Type")
    let w := w.HeaderAdd (ascii "Access-Control-Max-Age") (ascii "86400")
    some (w.WriteHeader StatusNoContent, server)
  else
    handler.next w r server

/-- Go `(*Server).AuthenticateMiddleware`. -/
def Server.AuthenticateMiddleware (L : Libs) (next : Handler) : Handler := fun w r server =>
  match r.BasicAuth with
  | some (user, pwd) =>
    match server.UserStore.Find user with
    | .error _ => some (w.WriteHeader StatusUnauthorized, server)
    | .ok u =>
      if u.Authenticate L pwd then
        next w (AddUserToContext r u) server
      else
        some (w.WriteHeader StatusUnauthorized, server)
  | none => some (w.WriteHeader StatusUnauthorized, server)

/-- Go `http.DefaultServeMux` as `Server.Start` uses it: patterns without
trailing slash, each matching its own path only. -/
abbrev ServeMux := GoMap GoString Handler

/-- Go `(*ServeMux).ServeHTTP`: the handler registered for the path, or
`http.NotFound`. -/
def ServeMux.ServeHTTP (mux : ServeMux) : Handler := fun w r server =>
  match mux.get? r.Path with
  | some h => h w r server
  | none =>
    let w := w.HeaderDel (ascii "Content-Length")
    let w := w.HeaderSet (ascii "Content-Type") (ascii "text/plain; charset=utf-8")
    let w := w.HeaderSet (ascii "X-Content-Type-Options") (ascii "nosniff")
    some ((w.WriteHeader StatusNotFound).Write (ascii "404 page not found\n"), server)

/-- The local variable `keyHandler` of `(*Server).Start` before it is wrapped. -/
def Server.keyHandler (L : Libs) : mutliMethodHandler :=
  { handlers := (GoMap.empty.set (ascii "GET") (Server.GetPublicKeyByUser L)).set
      (ascii "POST") (Server.AddUser L) }

/-- The local variable `messageHandler` of `(*Server).Start` before it is
wrapped. -/
def Server.messageHandler (L : Libs) : mutliMethodHandler :=
  { handlers := (GoMap.empty.set (ascii "GET") (Server.GetMessages L)).set
      (ascii "POST") (Server.AddMessage L) }

/-- Go `(*Server).Start`: the handlers it registers with `http.HandleFunc`, by
pattern.  (The listener it then starts serves them.) -/
def Server.Start (L : Libs) : ServeMux :=
  let keyHandler : Handler := coorsHandler.ServeHTTP { next := (Server.keyHandler L).ServeHTTP }
  let messageHandler : Handler :=
    coorsHandler.ServeHTTP { next := (Server.messageHandler L).ServeHTTP }
  (GoMap.empty.set (ascii "/pubkey") (Server.AuthenticateMiddleware L keyHandler)).set
    (ascii "/messages") (Server.AuthenticateMiddleware L messageHandler)

/-! ## Package `client` (`message.go`, `client.go`) -/

namespace ClientMessage

/-- Go `ClientMessage.EncryptContent`; `random` is `crypto/rand.Reader`. -/
def EncryptContent (L : Libs) (random : Entropy) (message : ClientMessage)
    (toPublicKey : PublicKey) : ClientMessage × Option Error :=
  match L.EncryptPKCS1v15 random toPublicKey message.Content with
  | .error err => (message, some err)
  | .ok encrpytedContent =>
    ({ message with Content := L.EncodeToString encrpytedContent, Encrypted := true }, none)

/-- Go `ClientMessage.DecryptContent`. -/
def DecryptContent (L : Libs) (message : ClientMessage) (myPrivateKey : PrivateKey) :
    ClientMessage × Option Error :=
  match L.DecodeString message.Content with
  | .error err => (message, some err)
  | .ok unencoded =>
    match L.DecryptPKCS1v15 myPrivateKey unencoded with
    | .error err => (message, some err)
    | .ok decryptedContent =>
      ({ message with Content := decryptedContent, Encrypted := false }, none)

end ClientMessage

/-- Go `client.MakeClientMessage`. -/
def MakeClientMessage (L : Libs) (now : Nat) (random : Entropy)
    (to_ : GoString) (from_ : GoString) (content : GoString) : ClientMessage :=
  MakeMessage L now random from_ to_ content

/-- Go `client.principal`. -/
structure principal where
  Username : GoString
  Password : GoString

/-- Go `client.Client`. -/
structure Client where
  PrivateKey : PrivateKey
  ServerHost : GoString
  Principal : principal

/-- Go `http.Response`, as far as the client reads it. -/
structure Response where
  Status : GoString
  StatusCode : Nat
  Body : GoString

/-- Go `http.DefaultClient.Do(request)` against the host that runs the handlers
of `Server.Start`: the request is served on a fresh writer.  A handler that
panics leaves the client with a transport error. -/
def Do (L : Libs) (request : Request) (server : Server) : Except Error Response × Server :=
  match ServeMux.ServeHTTP (Server.Start L) ResponseWriter.fresh request server with
  | none => (.error (Error.library (ascii "EOF")), server)
  | some (w, server) => (.ok { Status := L.Status w.StatusCode, StatusCode := w.StatusCode, Body := w.Body }, server)

namespace Client

/-- Go `(*Client).SetBasicAuth`. -/
def SetBasicAuth (cli : Client) (username : GoString) (password : GoString) : Client :=
  { cli with Principal := { Username := username, Password := password } }

/-- Go `(*Client).SendMessage`: the returned error and the server afterwards, or
`none` when it panics.  It calls `request.SetBasicAuth` before it looks at the
error of `http.NewRequest`, so on a server host that does not parse it
dereferences a nil request. -/
def SendMessage (L : Libs) (cli : Client) (message : ClientMessage) (server : Server) :
    Option (Option Error × Server) :=
  match L.MarshalMessage message with
  | .error err => some (some err, server)
  | .ok marshMessage =>
    match NewRequest L MethodPost (cli.ServerHost ++ ascii "/messages") marshMessage with
    | .error _ => none
    | .ok request =>
      let request := request.SetBasicAuth cli.Principal.Username cli.Principal.Password
      match Do L request server with
      | (.error err, server) => some (some err, server)
      | (.ok resp, server) =>
        if resp.StatusCode ≠ StatusOK then
          some (some (Error.errorString (ascii "bad status of" ++ resp.Status)), server)
        else some (none, server)

/-- Go `(*Client).SendEncryptedMessage`; `none` is the panic of `SendMessage`. -/
def SendEncryptedMessage (L : Libs) (random : Entropy) (cli : Client)
    (message : ClientMessage) (key : PublicKey) (server : Server) :
    Option (Option Error × Server) :=
  match ClientMessage.EncryptContent L random message key with
  | (_, some err) => some (some err, server)
  | (msg, none) =>
    let msg := { msg with Encrypted := true }
    match cli.SendMessage L msg server with
    | none => none
    | some (some err, server) => some (some err, server)
    | some (none, server) => some (none, server)

/-- Go `(*Client).GetMessages`. -/
def GetMessages (L : Libs) (cli : Client) (userID : GoString) (server : Server) :
    Except Error (List ClientMessage) × Server :=
  match NewRequest L MethodGet (cli.ServerHost ++ ascii "/messages") [] with
  | .error err => (.error err, server)
  | .ok request =>
    let request := request.SetBasicAuth cli.Principal.Username cli.Principal.Password
    let request := { request with Query := request.Query ++ [(ascii "userID", userID)] }
    match Do L request server with
    | (.error err, server) => (.error err, server)
    | (.ok response, server) =>
      if response.StatusCode ≠ StatusOK then
        (.error (Error.errorString (ascii "client.GetMessages status of " ++ response.Status)),
          server)
      else
        match L.DecodeMessages response.Body with
        | .error err => (.error err, server)
        | .ok messages =>
          (.ok (messages.map
            (fun message => (ClientMessage.DecryptContent L message cli.PrivateKey).1)),
            server)

end Client

/-! ## Package `client`: the key file (`client.go`) -/

/-- The files of the client machine: the contents of the files that exist, the
names that `os.Open` refuses, the names that `os.Create` refuses, and the size
beyond which a file cannot grow. -/
structure FileSystem where
  files : GoMap GoString GoString
  openFails : GoString → Bool
  createFails : GoString → Bool
  quota : Nat

namespace FileSystem

/-- Go `os.Open(name)` followed by `ioutil.ReadAll` on the file: the bytes of the
file, or the error of `os.Open`. -/
def ReadFile (fs : FileSystem) (name : GoString) : Except Error GoString :=
  if fs.openFails name then .error (Error.library (ascii "permission denied"))
  else
    match fs.files.get? name with
    | none => .error (Error.library (ascii "no such file or directory"))
    | some data => .ok data

/-- Go `os.Create(name)`: the file exists and is empty afterwards, unless the
call fails. -/
def Create (fs : FileSystem) (name : GoString) : Option Error × FileSystem :=
  if fs.createFails name then (some (Error.library (ascii "permission denied")), fs)
  else (none, { fs with files := fs.files.set name [] })

/-- A write of `data` at the end of the file `name`, as `pem.Encode` does on the
file it is given: it fails when the file would outgrow the quota, and then the
file holds what fitted. -/
def Write (fs : FileSystem) (name : GoString) (data : GoString) : Option Error × FileSystem :=
  let old := (fs.files.get? name).getD []
  if old.length + data.length ≤ fs.quota then
    (none, { fs with files := fs.files.set name (old ++ data) })
  else
    (some (Error.library (ascii "no space left on device")),
      { fs with files := fs.files.set name ((old ++ data).take fs.quota) })

end FileSystem

/-- Go `client.sizeKey`. -/
def sizeKey : Nat := 2048

/-- Go `client.pathKey`. -/
def pathKey : GoString := ascii "priv_key.gogob"

/-- Go `client.generateAndSaveKey`: the key or the error it returns, and the
files afterwards. -/
def generateAndSaveKey (L : Libs) (random : Entropy) (keyPath : GoString) (fs : FileSystem) :
    Except Error PrivateKey × FileSystem :=
  match L.GenerateKey random sizeKey with
  | .error err => (.error err, fs)
  | .ok privKey =>
    let privateKeyBytes := L.MarshalPKCS1PrivateKey privKey
    let publicKeyBytes := L.MarshalPKCS1PublicKey privKey.PublicKey
    let privateKeyBlock : Block := { Type_ := ascii "RSA PRIVATE KEY", Bytes := privateKeyBytes }
    let publicKeyBlock : Block := { Type_ := ascii "PUBLIC KEY", Bytes := publicKeyBytes }
    match fs.Create keyPath with
    | (some err, fs) => (.error err, fs)
    | (none, fs) =>
      match fs.Write keyPath (L.PEMEncode privateKeyBlock) with
      | (some err, fs) => (.error err, fs)
      | (none, fs) =>
        match fs.Write keyPath (L.PEMEncode publicKeyBlock) with
        | (some err, fs) => (.error err, fs)
        | (none, fs) => (.ok privKey, fs)

/-- The `for len(data) != 0` loop of Go `client.loadKey`.  Every turn drops at
least one byte of `data`, so `fuel` turns suffice when `fuel` is the length of
`data`; with no fuel left `data` is empty and the loop is over. -/
def loadKeyLoop (L : Libs) (random : Entropy) (keyPath : GoString) (fs : FileSystem) :
    Nat → GoString → Except Error PrivateKey × FileSystem
  | 0, _ => (.error (Error.errorString (ascii "unexpected end")), fs)
  | fuel + 1, data =>
    if data.length = 0 then (.error (Error.errorString (ascii "unexpected end")), fs)
    else
      match L.PEMDecode data with
      | none => generateAndSaveKey L random keyPath fs
      | some (block, n) =>
        if block.Type_ = ascii "RSA PRIVATE KEY" then
          match L.ParsePKCS1PrivateKey block.Bytes with
          | .error err => (.error err, fs)
          | .ok pk => (.ok pk, fs)
        else loadKeyLoop L random keyPath fs fuel (data.drop (n + 1))

/-- Go `client.loadKey`. -/
def loadKey (L : Libs) (random : Entropy) (keyPath : GoString) (fs : FileSystem) :
    Except Error PrivateKey × FileSystem :=
  match fs.ReadFile keyPath with
  | .error err => (.error err, fs)
  | .ok data => loadKeyLoop L random keyPath fs data.length data

/-- Go `client.MakeClient`: the client, or `none` when it panics, and the files
afterwards.  `random` and `random'` are what `crypto/rand.Reader` yields to the
key generation inside `loadKey` and to the one of `MakeClient` itself. -/
def MakeClient (L : Libs) (random random' : Entropy) (keyPath : GoString)
    (serverHost : GoString) (fs : FileSystem) : Option Client × FileSystem :=
  match loadKey L random keyPath fs with
  | (.ok key, fs) =>
    (some { PrivateKey := key, ServerHost := serverHost,
            Principal := { Username := [], Password := [] } }, fs)
  | (.error _, fs) =>
    match generateAndSaveKey L random' keyPath fs with
    | (.error _, fs) => (none, fs)
    | (.ok key, fs) =>
      (some { PrivateKey := key, ServerHost := serverHost,
              Principal := { Username := [], Password := [] } }, fs)

/-- Key generation or the writing of the key file fails: `rsa.GenerateKey`
returns an error, or `os.Create` refuses the path, or the two PEM blocks do not
fit into the file. -/
def GenerationFails (L : Libs) (random : Entropy) (keyPath : GoString) (fs : FileSystem) :
    Prop :=
  (∃ err, L.GenerateKey random sizeKey = .error err) ∨
  (∃ privKey, L.GenerateKey random sizeKey = .ok privKey ∧
    (fs.createFails keyPath = true ∨
      fs.quota <
        (L.PEMEncode { Type_ := ascii "RSA PRIVATE KEY",
                       Bytes := L.MarshalPKCS1PrivateKey privKey }).length +
        (L.PEMEncode { Type_ := ascii "PUBLIC KEY",
                       Bytes := L.MarshalPKCS1PublicKey privKey.PublicKey }).length))

/-! ## The stores a program can build -/

/-- The message stores that a program reaches from `MakeMemoryMessageStore()` by
calls of `Add` and `DeleteByID`, in any number and order. -/
inductive MemoryMessageStore.Reachable : MemoryMessageStore → Prop where
  | make : Reachable MakeMemoryMessageStore
  | add (store : MemoryMessageStore) (message : Message) :
      Reachable store → Reachable (store.Add message).2
  | deleteByID (store : MemoryMessageStore) (messageID : MessageID) :
      Reachable store → Reachable (store.DeleteByID messageID).2

/-! ## What the program relies on in the packages outside the repository -/

/-- The contract of PKCS #1 v1.5 encryption for the key pair `priv`: a message
of at most `Size() - 11` bytes is encrypted without error under the public key,
whatever the random source yields, and the private key decrypts the ciphertext
to that message. -/
def PKCS1v15Contract (L : Libs) (priv : PrivateKey) : Prop :=
  ∀ (random : Entropy) (msg : GoString), msg.length + 11 ≤ priv.PublicKey.Size →
    ∃ c, L.EncryptPKCS1v15 random priv.PublicKey msg = .ok c ∧
      L.DecryptPKCS1v15 priv c = .ok msg

/-- The contract of `base64.URLEncoding`: decoding an encoding gives the bytes
back. -/
def Base64Contract (L : Libs) : Prop :=
  ∀ b : GoString, L.DecodeString (L.EncodeToString b) = .ok b

/-- The contract of `encoding/json` at the message `m`: `m` and the slice that
holds just `m` are encoded without error, and decoding the encoding gives them
back.  (The Go package meets it for text fields that are valid UTF-8.) -/
def JSONRoundTrip (L : Libs) (m : Message) : Prop :=
  (∃ b, L.MarshalMessage m = .ok b ∧ L.DecodeMessage b = .ok m) ∧
  (∃ b, L.EncodeMessages [m] = .ok b ∧ L.DecodeMessages b = .ok [m])

/-! ## A small instance of the outside packages, and sample data -/

/-- The fields of a message as a tuple. -/
def Message.equivTuple :
    Message ≃ (GoString × GoString × Nat × MessageID × GoString × Bool) where
  toFun m := (m.From, m.To, m.TimeSent, m.ID, m.Content, m.Encrypted)
  invFun t := ⟨t.1, t.2.1, t.2.2.1, t.2.2.2.1, t.2.2.2.2.1, t.2.2.2.2.2⟩
  left_inv := fun _ => rfl
  right_inv := fun _ => rfl

instance : Encodable Message := Encodable.ofEquiv _ Message.equivTuple

/-- A number written as that many zero bytes. -/
def unary (n : Nat) : GoString := List.replicate n 0

/-- A stand-in for the outside packages on which their contracts hold:
"encryption" reverses the message when it is short enough for the key, base64 is
the identity, a password hash is the reversed password, a JWK body is its modulus
bytes, and JSON writes the code number of a value in unary. -/
def sampleLibs : Libs where
  EncryptPKCS1v15 := fun _ pub msg =>
    if msg.length + 11 ≤ pub.Size then .ok msg.reverse
    else .error (Error.library (ascii "crypto/rsa: message too long for RSA key size"))
  DecryptPKCS1v15 := fun _ c => .ok c.reverse
  EncodeToString := fun b => b
  DecodeString := fun s => .ok s
  GenerateFromPassword := fun _ pwd _ => .ok pwd.reverse
  CompareHashAndPassword := fun hash pwd =>
    if hash = pwd.reverse then none
    else some (Error.library (ascii "hashedPassword is not the hash of the given password"))
  ParseKey := fun body =>
    if body = [] then .error (Error.library (ascii "failed to parse key"))
    else .ok (JWK.RSAPublicKey { n := body, e := [1, 0, 1] })
  Raw := fun key =>
    match key with
    | JWK.RSAPublicKey k => .ok { N := k.n.length, E := k.e.length }
    | JWK.other _ => .error (Error.library (ascii "invalid key type"))
  New := fun pub => .ok (JWK.RSAPublicKey { n := unary pub.N, e := unary pub.E })
  MarshalJWK := fun k => .ok (k.n ++ [1] ++ k.e)
  GenerateKey := fun _ bits =>
    if bits = 0 then .error (Error.library (ascii "crypto/rsa: too few primes"))
    else .ok { PublicKey := { N := 2 ^ (bits - 1), E := 65537 }, D := 1, Primes := [] }
  MarshalPKCS1PrivateKey := fun priv => unary priv.D
  MarshalPKCS1PublicKey := fun pub => unary pub.E
  ParsePKCS1PrivateKey := fun _ =>
    .error (Error.library (ascii "x509: failed to parse private key"))
  PEMDecode := fun _ => none
  PEMEncode := fun block => block.Type_ ++ block.Bytes
  URLPath := fun rawurl =>
    if (ascii "http://localhost:8080").isPrefixOf rawurl then
      .ok (rawurl.drop (ascii "http://localhost:8080").length)
    else .error (Error.library (ascii "parse: invalid URL"))
  Status := fun _ => []
  MarshalMessage := fun m => .ok (unary (Encodable.encode m))
  DecodeMessage := fun b =>
    match (Encodable.decode b.length : Option Message) with
    | some m => .ok m
    | none => .error (Error.library (ascii "invalid character"))
  EncodeMessages := fun ms => .ok (unary (Encodable.encode ms))
  DecodeMessages := fun b =>
    match (Encodable.decode b.length : Option (List Message)) with
    | some ms => .ok ms
    | none => .error (Error.library (ascii "invalid character"))

/-- A sample key pair with a modulus of 2048 bits. -/
def sampleKey : PrivateKey :=
  { PublicKey := { N := 2 ^ 2047, E := 65537 }, D := 1, Primes := [] }

/-- The message of `TestAddDuplicate`. -/
def sampleMessage : Message :=
  { ID := ascii "1", To := ascii "MEP", From := ascii "PEM", Content := ascii "Hello",
    TimeSent := 0, Encrypted := false }

/-- The store of `TestAddDuplicate` after its first `Add`. -/
def sampleStore : MemoryMessageStore := (MakeMemoryMessageStore.Add sampleMessage).2

/-- User MEP of `TestSendAndReceiveMessage`, with the hash that `sampleLibs`
accepts for the password "HELLO". -/
def sampleMEP : User :=
  { Username := ascii "MEP", Password := (ascii "HELLO").reverse,
    Email := ascii "mep@example.foo" }

/-- User ROOT of `TestSendAndReceiveMessage`, with password "GOODBYE". -/
def sampleROOT : User :=
  { Username := ascii "ROOT", Password := (ascii "GOODBYE").reverse,
    Email := ascii "root@example.foo" }

/-- The user store of `TestSendAndReceiveMessage`. -/
def sampleUsers : MemoryUserStore :=
  ((MakeMemoryUserStore.Add sampleMEP).2.Add sampleROOT).2

/-- A request with the password of another user. -/
def sampleBadRequest : Request :=
  { Method := MethodPost, Path := ascii "/messages", Query := [],
    BasicAuth := some (ascii "MEP", ascii "GOODBYE"), Body := ascii "x", Principal := none }

/-- A server on which MEP has registered the key `{N: 5, E: 3}`. -/
def sampleServerWithKey : Server :=
  { UserStore := sampleUsers,
    Keystore := ⟨GoMap.empty.set (ascii "MEP") { N := 5, E := 3 }⟩,
    MessageStore := MakeMemoryMessageStore }

/-- MEP posts a second key: under `sampleLibs` the body is the JWK of
`{N: 7, E: 3}`. -/
def sampleRegisterRequest : Request :=
  { Method := MethodPost, Path := ascii "/pubkey", Query := [(ascii "userID", ascii "ROOT")],
    BasicAuth := some (ascii "MEP", ascii "HELLO"), Body := ascii "another",
    Principal := none }

/-- The client of MEP in `TestSendAndReceiveMessage`. -/
def sampleClientMEP : Client :=
  { PrivateKey := { PublicKey := { N := 2 ^ 2047 + 2 ^ 1024, E := 65537 }, D := 1, Primes := [] },
    ServerHost := ascii "http://localhost:8080",
    Principal := { Username := ascii "MEP", Password := ascii "HELLO" } }

/-- The client of ROOT in `TestSendAndReceiveMessage`. -/
def sampleClientROOT : Client :=
  { PrivateKey := sampleKey, ServerHost := ascii "http://localhost:8080",
    Principal := { Username := ascii "ROOT", Password := ascii "GOODBYE" } }

/-- The server of `TestSendAndReceiveMessage` once ROOT has registered its
public key. -/
def sampleServerROOTKey : Server :=
  { UserStore := sampleUsers,
    Keystore := ⟨GoMap.empty.set (ascii "ROOT") sampleKey.PublicKey⟩,
    MessageStore := MakeMemoryMessageStore }

/-- The server of `TestSendAndReceiveMessage` before any request. -/
def sampleServer : Server :=
  { UserStore := sampleUsers, Keystore := MakeMemoryUserKeystore,
    MessageStore := MakeMemoryMessageStore }

/-- A message that is not flagged as encrypted, from MEP to ROOT, whose content
is what `sampleLibs` makes of "Hello!" under the key of ROOT. -/
def sampleUnflaggedMessage : Message :=
  { ID := ascii "2", To := ascii "ROOT", From := ascii "MEP", Content := ascii "!olleH",
    TimeSent := 0, Encrypted := false }

/-- A server whose message store holds `sampleUnflaggedMessage`. -/
def sampleServerUnflagged : Server :=
  { UserStore := sampleUsers, Keystore := MakeMemoryUserKeystore,
    MessageStore := (MakeMemoryMessageStore.Add sampleUnflaggedMessage).2 }

/-- A preflight request of MEP with its credentials. -/
def samplePreflight : Request :=
  { Method := MethodOptions, Path := ascii "/messages", Query := [],
    BasicAuth := some (ascii "MEP", ascii "HELLO"), Body := [], Principal := none }

/-- A preflight request as a browser sends it: without credentials. -/
def sampleAnonymousPreflight : Request :=
  { Method := MethodOptions, Path := ascii "/messages", Query := [],
    BasicAuth := none, Body := [], Principal := none }

/-- A user whose name holds a colon, with password "pw". -/
def sampleColonUser : User :=
  { Username := ascii "A:B", Password := (ascii "pw").reverse, Email := ascii "ab@example.foo" }

/-- The client of that user. -/
def sampleClientColon : Client :=
  { PrivateKey := { PublicKey := { N := 2 ^ 2047 + 2 ^ 1024, E := 65537 }, D := 1, Primes := [] },
    ServerHost := ascii "http://localhost:8080",
    Principal := { Username := ascii "A:B", Password := ascii "pw" } }

/-- A server on which the users `A:B` and ROOT are registered, ROOT has
registered its public key, and no message is stored. -/
def sampleServerColon : Server :=
  { UserStore := ((MakeMemoryUserStore.Add sampleColonUser).2.Add sampleROOT).2,
    Keystore := ⟨GoMap.empty.set (ascii "ROOT") sampleKey.PublicKey⟩,
    MessageStore := MakeMemoryMessageStore }

/-- A machine without files on which no file can be created. -/
def sampleReadOnlyFiles : FileSystem :=
  { files := GoMap.empty, openFails := fun _ => false, createFails := fun _ => true,
    quota := 4096 }

/-! ## Go maps: the laws of lookup, assignment and deletion -/

namespace GoMap

variable {κ ν : Type} [DecidableEq κ]

theorem lookup_filter_ne (l : List (κ × ν)) (k k' : κ) (h : k' ≠ k) :
    (l.filter (fun e => !decide (e.1 = k))).lookup k' = l.lookup k' := by
  induction l with
  | nil => rfl
  | cons e l ih =>
    obtain ⟨a, b⟩ := e
    by_cases hak : a = k
    · subst hak
      have h1 : (k' == a) = false := by simpa using h
      rw [List.filter_cons, List.lookup_cons, h1]
      simpa using ih
    · by_cases hk' : k' = a
      · subst hk'
        simp [List.filter_cons, List.lookup_cons, hak]
      · have h1 : (k' == a) = false := by simpa using hk'
        rw [List.filter_cons, List.lookup_cons, h1]
        simp only [hak, decide_False, Bool.not_false, if_true, List.lookup_cons, h1]
        exact ih

theorem lookup_filter_self (l : List (κ × ν)) (k : κ) :
    (l.filter (fun e => !decide (e.1 = k))).lookup k = none := by
  induction l with
  | nil => rfl
  | cons e l ih =>
    obtain ⟨a, b⟩ := e
    by_cases hak : a = k
    · rw [List.filter_cons]
      simpa [hak] using ih
    · have h1 : (k == a) = false := by simpa using fun h => hak h.symm
      rw [List.filter_cons]
      simp only [hak, decide_False, Bool.not_false, if_true, List.lookup_cons, h1]
      exact ih

theorem filter_ne_of_lookup_none (l : List (κ × ν)) (k : κ) (h : l.lookup k = none) :
    l.filter (fun e => !decide (e.1 = k)) = l := by
  induction l with
  | nil => rfl
  | cons e l ih =>
    obtain ⟨a, b⟩ := e
    by_cases hak : k = a
    · subst hak
      simp [List.lookup_cons] at h
    · have h1 : (k == a) = false := by simpa using hak
      rw [List.lookup_cons, h1] at h
      have hak' : a ≠ k := fun h => hak h.symm
      rw [List.filter_cons]
      simp only [hak', decide_False, Bool.not_false, if_true]
      rw [ih h]

theorem not_mem_keys_of_lookup_none (l : List (κ × ν)) (k : κ) (h : l.lookup k = none) :
    k ∉ l.map Prod.fst := by
  induction l with
  | nil => simp
  | cons e l ih =>
    obtain ⟨a, b⟩ := e
    by_cases hak : k = a
    · subst hak
      simp [List.lookup_cons] at h
    · have h1 : (k == a) = false := by simpa using hak
      rw [List.lookup_cons, h1] at h
      rw [List.map_cons, List.mem_cons]
      rintro (h' | h')
      · exact hak h'
      · exact ih h h'

theorem lookup_none_of_not_mem_keys (l : List (κ × ν)) (k : κ) (h : k ∉ l.map Prod.fst) :
    l.lookup k = none := by
  induction l with
  | nil => rfl
  | cons e l ih =>
    obtain ⟨a, b⟩ := e
    rw [List.map_cons, List.mem_cons, not_or] at h
    have h1 : (k == a) = false := by simpa using h.1
    rw [List.lookup_cons, h1]
    exact ih h.2

theorem length_filter_ne_of_lookup_some (l : List (κ × ν)) (k : κ) (v : ν)
    (nd : (l.map Prod.fst).Nodup) (h : l.lookup k = some v) :
    (l.filter (fun e => !decide (e.1 = k))).length + 1 = l.length := by
  induction l with
  | nil => simp at h
  | cons e l ih =>
    obtain ⟨a, b⟩ := e
    rw [List.map_cons, List.nodup_cons] at nd
    by_cases hak : k = a
    · subst hak
      have hnone : l.lookup k = none := lookup_none_of_not_mem_keys l k nd.1
      rw [List.filter_cons]
      simp only [decide_True, Bool.not_true, Bool.false_eq_true, if_false]
      rw [filter_ne_of_lookup_none l k hnone, List.length_cons]
    · have h1 : (k == a) = false := by simpa using hak
      rw [List.lookup_cons, h1] at h
      have hak' : a ≠ k := fun h => hak h.symm
      rw [List.filter_cons]
      simp only [hak', decide_False, Bool.not_false, if_true, List.length_cons]
      rw [ih nd.2 h]

theorem get?_set_self (m : GoMap κ ν) (k : κ) (v : ν) : (m.set k v).get? k = some v := by
  simp [get?, set, List.lookup_cons]

theorem get?_set_ne (m : GoMap κ ν) (k k' : κ) (v : ν) (h : k' ≠ k) :
    (m.set k v).get? k' = m.get? k' := by
  have h1 : (k' == k) = false := by simpa using h
  simp only [get?, set, List.lookup_cons, h1]
  exact lookup_filter_ne _ _ _ h

theorem len_set_of_get?_none (m : GoMap κ ν) (k : κ) (v : ν) (h : m.get? k = none) :
    (m.set k v).len = m.len + 1 := by
  simp only [len, set, List.length_cons]
  rw [filter_ne_of_lookup_none _ _ h]

theorem get?_delete_self (m : GoMap κ ν) (k : κ) : (m.delete k).get? k = none :=
  lookup_filter_self _ _

theorem get?_delete_ne (m : GoMap κ ν) (k k' : κ) (h : k' ≠ k) :
    (m.delete k).get? k' = m.get? k' :=
  lookup_filter_ne _ _ _ h

theorem len_delete_of_get?_some (m : GoMap κ ν) (k : κ) (v : ν) (h : m.get? k = some v) :
    (m.delete k).len + 1 = m.len :=
  length_filter_ne_of_lookup_some _ _ v m.nodup h

theorem lookup_eq_some_iff_mem (l : List (κ × ν)) (nd : (l.map Prod.fst).Nodup) (k : κ)
    (v : ν) : l.lookup k = some v ↔ (k, v) ∈ l := by
  induction l with
  | nil => simp
  | cons e l ih =>
    obtain ⟨a, b⟩ := e
    rw [List.map_cons, List.nodup_cons] at nd
    by_cases hak : k = a
    · subst hak
      have hnot : ∀ v', (k, v') ∉ l := fun v' hm => nd.1 (List.mem_map.2 ⟨(k, v'), hm, rfl⟩)
      simp [List.lookup_cons, hnot v, eq_comm]
    · have h1 : (k == a) = false := by simpa using hak
      rw [List.lookup_cons, h1, List.mem_cons]
      simp only [Prod.mk.injEq, hak, false_and, false_or]
      exact ih nd.2

theorem mem_values_iff (m : GoMap κ ν) (v : ν) : v ∈ m.values ↔ ∃ k, m.get? k = some v := by
  simp only [values, get?, List.mem_map]
  constructor
  · rintro ⟨⟨k, v'⟩, hmem, rfl⟩
    exact ⟨k, (lookup_eq_some_iff_mem _ m.nodup k v').2 hmem⟩
  · rintro ⟨k, hk⟩
    exact ⟨(k, v), (lookup_eq_some_iff_mem _ m.nodup k v).1 hk, rfl⟩

theorem count_values_eq_one [DecidableEq ν] (m : GoMap κ ν) (k : κ) (v : ν)
    (hk : m.get? k = some v) (huniq : ∀ k', m.get? k' = some v → k' = k) :
    m.values.count v = 1 := by
  have hmem : (k, v) ∈ m.entries := (lookup_eq_some_iff_mem _ m.nodup k v).1 hk
  have hnd : m.entries.Nodup := List.Nodup.of_map _ m.nodup
  have hcount : @List.count (κ × ν) instBEqOfDecidableEq (k, v) m.entries = 1 :=
    List.count_eq_one_of_mem hnd hmem
  rw [← hcount]
  simp only [values, List.count, List.countP_map]
  apply List.countP_congr
  intro e he
  obtain ⟨a, b⟩ := e
  simp only [Function.comp, beq_iff_eq]
  constructor
  · intro hb
    subst hb
    rw [huniq a ((lookup_eq_some_iff_mem _ m.nodup a b).2 he)]
    exact decide_eq_true rfl
  · intro h
    exact (Prod.mk.inj (of_decide_eq_true h)).2

end GoMap

/-! ## The message store -/

namespace MemoryMessageStore

theorem foldl_append_eq (p : Message → Prop) [DecidablePred p] (es : List (MessageID × Message))
    (acc : List Message) :
    es.foldl (fun messages e => if p e.2 then messages ++ [e.2] else messages) acc
      = acc ++ (es.map Prod.snd).filter (fun m => decide (p m)) := by
  induction es generalizing acc with
  | nil => simp
  | cons e es ih =>
    rw [List.foldl_cons, ih, List.map_cons, List.filter_cons]
    by_cases h : p e.2 <;> simp [h]

theorem count_filter_ite (p : Message → Prop) [DecidablePred p] (l : List Message)
    (m : Message) :
    (l.filter (fun x => decide (p x))).count m = if p m then l.count m else 0 := by
  by_cases h : p m
  · rw [if_pos h]
    exact List.count_filter (by simpa using h)
  · rw [if_neg h, List.count_eq_zero]
    intro hmem
    exact h (by simpa using (List.mem_filter.1 hmem).2)

theorem FindReceivedByUserID_eq (store : MemoryMessageStore) (userID : GoString) :
    (store.FindReceivedByUserID userID).1
      = store.messages.values.filter (fun m => decide (m.To = userID)) := by
  simp only [FindReceivedByUserID, GoMap.values]
  rw [foldl_append_eq (fun m => m.To = userID)]
  rfl

theorem FindSentByUserID_eq (store : MemoryMessageStore) (userID : GoString) :
    (store.FindSentByUserID userID).1
      = store.messages.values.filter (fun m => decide (m.From = userID)) := by
  simp only [FindSentByUserID, GoMap.values]
  rw [foldl_append_eq (fun m => m.From = userID)]
  rfl

theorem FindAllByUserID_eq (store : MemoryMessageStore) (userID : GoString) :
    (store.FindAllByUserID userID).1
      = store.messages.values.filter (fun m => decide (m.From = userID ∨ m.To = userID)) := by
  simp only [FindAllByUserID, GoMap.values]
  rw [foldl_append_eq (fun m => m.From = userID ∨ m.To = userID)]
  rfl

/-- C5. `Add` of a message whose ID is already a key of the store returns
`ErrDuplicateID{ID: m.ID, Action: "Add"}` and leaves the store as it was: the
same store, hence the same size and the same entry under that ID. -/
theorem Add_duplicate (store : MemoryMessageStore) (m old : Message)
    (h : store.messages.get? m.ID = some old) :
    (store.Add m).1 = some (Error.ErrDuplicateID m.ID (ascii "Add")) ∧
    (store.Add m).2 = store ∧
    (store.Add m).2.messages.len = store.messages.len ∧
    (store.Add m).2.messages.get? m.ID = some old := by
  simp [Add, h]

/-- C6. `Add` of a message whose ID is not a key of the store returns no error;
afterwards the store maps `m.ID` to `m`, holds exactly one entry more, and every
other key is mapped as before. -/
theorem Add_fresh (store : MemoryMessageStore) (m : Message)
    (h : store.messages.get? m.ID = none) :
    (store.Add m).1 = none ∧
    (store.Add m).2.messages.get? m.ID = some m ∧
    (store.Add m).2.messages.len = store.messages.len + 1 ∧
    ∀ k, k ≠ m.ID → (store.Add m).2.messages.get? k = store.messages.get? k := by
  have hAdd : store.Add m = (none, ⟨store.messages.set m.ID m⟩) := by simp [Add, h]
  rw [hAdd]
  exact ⟨rfl, GoMap.get?_set_self _ _ _, GoMap.len_set_of_get?_none _ _ _ h,
    fun k hk => GoMap.get?_set_ne _ _ _ _ hk⟩

/-- C8. `FindReceivedByUserID(A)` returns no error, and its result is, up to
order, the stored messages with `To == A`, one occurrence for each key that holds
such a message; a message is in the result exactly when it is stored and has
`To == A`. -/
theorem FindReceivedByUserID_spec (store : MemoryMessageStore) (A : GoString) :
    (store.FindReceivedByUserID A).2 = none ∧
    (store.FindReceivedByUserID A).1.Perm
      (store.messages.values.filter (fun m => decide (m.To = A))) ∧
    (∀ m, m ∈ (store.FindReceivedByUserID A).1 ↔
      (∃ k, store.messages.get? k = some m) ∧ m.To = A) ∧
    (∀ m, (store.FindReceivedByUserID A).1.count m =
      if m.To = A then store.messages.values.count m else 0) := by
  refine ⟨rfl, ?_, ?_, ?_⟩
  · rw [FindReceivedByUserID_eq]
  · intro m
    rw [FindReceivedByUserID_eq, List.mem_filter, GoMap.mem_values_iff]
    simp
  · intro m
    rw [FindReceivedByUserID_eq, count_filter_ite]

/-- C9. `FindSentByUserID(A)` returns no error, and its result is, up to order,
the stored messages with `From == A`, one occurrence for each key that holds such
a message; a message is in the result exactly when it is stored and has
`From == A`. -/
theorem FindSentByUserID_spec (store : MemoryMessageStore) (A : GoString) :
    (store.FindSentByUserID A).2 = none ∧
    (store.FindSentByUserID A).1.Perm
      (store.messages.values.filter (fun m => decide (m.From = A))) ∧
    (∀ m, m ∈ (store.FindSentByUserID A).1 ↔
      (∃ k, store.messages.get? k = some m) ∧ m.From = A) ∧
    (∀ m, (store.FindSentByUserID A).1.count m =
      if m.From = A then store.messages.values.count m else 0) := by
  refine ⟨rfl, ?_, ?_, ?_⟩
  · rw [FindSentByUserID_eq]
  · intro m
    rw [FindSentByUserID_eq, List.mem_filter, GoMap.mem_values_iff]
    simp
  · intro m
    rw [FindSentByUserID_eq, count_filter_ite]

/-- C7. `FindAllByUserID(A)` returns no error, and its result is, up to order,
the stored messages with `From == A` or `To == A`, one occurrence for each key
that holds such a message, and nothing else.  In particular a message with
`From == To == A` that is stored under one key occurs exactly once. -/
theorem FindAllByUserID_spec (store : MemoryMessageStore) (A : GoString) :
    (store.FindAllByUserID A).2 = none ∧
    (store.FindAllByUserID A).1.Perm
      (store.messages.values.filter (fun m => decide (m.From = A ∨ m.To = A))) ∧
    (∀ m, m ∈ (store.FindAllByUserID A).1 ↔
      (∃ k, store.messages.get? k = some m) ∧ (m.From = A ∨ m.To = A)) ∧
    (∀ m, (store.FindAllByUserID A).1.count m =
      if m.From = A ∨ m.To = A then store.messages.values.count m else 0) ∧
    (∀ k m, store.messages.get? k = some m →
      (∀ k', store.messages.get? k' = some m → k' = k) →
      m.From = A → m.To = A → (store.FindAllByUserID A).1.count m = 1) := by
  refine ⟨rfl, ?_, ?_, ?_, ?_⟩
  · rw [FindAllByUserID_eq]
  · intro m
    rw [FindAllByUserID_eq, List.mem_filter, GoMap.mem_values_iff]
    simp
  · intro m
    rw [FindAllByUserID_eq, count_filter_ite]
  · intro k m hk huniq hfrom hto
    rw [FindAllByUserID_eq, count_filter_ite, if_pos (Or.inl hfrom)]
    exact GoMap.count_values_eq_one _ k m hk huniq

/-- C10. `DeleteByID(id)` returns `ErrKeyDoesNotExist{id}` exactly when `id` is
not a key of the store, and then the store is unchanged; otherwise it returns no
error and the store afterwards is the original without the entry for `id`: `id`
is no key any more, every other key is mapped as before, and the size has
dropped by one. -/
theorem DeleteByID_spec (store : MemoryMessageStore) (id : MessageID) :
    ((store.DeleteByID id).1 = some (Error.ErrKeyDoesNotExist id) ↔
      store.messages.get? id = none) ∧
    (store.messages.get? id = none → (store.DeleteByID id).2 = store) ∧
    (store.messages.get? id ≠ none →
      (store.DeleteByID id).1 = none ∧
      (store.DeleteByID id).2.messages.get? id = none ∧
      (∀ k, k ≠ id → (store.DeleteByID id).2.messages.get? k = store.messages.get? k) ∧
      (store.DeleteByID id).2.messages.len + 1 = store.messages.len) := by
  cases h : store.messages.get? id with
  | none => simp [DeleteByID, h]
  | some v =>
    have hDel : store.DeleteByID id = (none, ⟨store.messages.delete id⟩) := by
      simp [DeleteByID, h]
    rw [hDel]
    refine ⟨by simp, by simp, fun _ => ⟨rfl, GoMap.get?_delete_self _ _,
      fun k hk => GoMap.get?_delete_ne _ _ _ hk, GoMap.len_delete_of_get?_some _ _ v h⟩⟩

/-- Witness for C5 on the data of `TestAddDuplicate`. -/
theorem Add_duplicate_witness :
    sampleStore.messages.get? sampleMessage.ID = some sampleMessage ∧
    (sampleStore.Add sampleMessage).1
      = some (Error.ErrDuplicateID sampleMessage.ID (ascii "Add")) ∧
    (sampleStore.Add sampleMessage).2 = sampleStore ∧
    (sampleStore.Add sampleMessage).2.messages.len = sampleStore.messages.len ∧
    (sampleStore.Add sampleMessage).2.messages.get? sampleMessage.ID = some sampleMessage :=
  ⟨by decide, Add_duplicate sampleStore sampleMessage sampleMessage (by decide)⟩

/-- Witness for C6: the first `Add` of `TestAddDuplicate`, into the empty store. -/
theorem Add_fresh_witness :
    MakeMemoryMessageStore.messages.get? sampleMessage.ID = none ∧
    (MakeMemoryMessageStore.Add sampleMessage).1 = none ∧
    (MakeMemoryMessageStore.Add sampleMessage).2.messages.get? sampleMessage.ID
      = some sampleMessage ∧
    (MakeMemoryMessageStore.Add sampleMessage).2.messages.len
      = MakeMemoryMessageStore.messages.len + 1 ∧
    ∀ k, k ≠ sampleMessage.ID →
      (MakeMemoryMessageStore.Add sampleMessage).2.messages.get? k
        = MakeMemoryMessageStore.messages.get? k :=
  ⟨by decide, Add_fresh MakeMemoryMessageStore sampleMessage (by decide)⟩

end MemoryMessageStore

/-! ## The sample instance meets the contracts -/

theorem size_two_pow (n e : Nat) : (PublicKey.mk (2 ^ n) e).Size = (n + 1 + 7) / 8 := by
  simp only [PublicKey.Size, bitLen, Nat.size_pow]

theorem sampleKey_size : sampleKey.PublicKey.Size = 256 := size_two_pow 2047 65537

theorem sampleLibs_pkcs1v15 (priv : PrivateKey) : PKCS1v15Contract sampleLibs priv := by
  intro random msg hlen
  exact ⟨msg.reverse, by simp [sampleLibs, hlen], by simp [sampleLibs]⟩

theorem sampleLibs_base64 : Base64Contract sampleLibs := fun _ => rfl

theorem sampleLibs_json (m : Message) : JSONRoundTrip sampleLibs m := by
  refine ⟨⟨unary (Encodable.encode m), rfl, ?_⟩, ⟨unary (Encodable.encode [m]), rfl, ?_⟩⟩
  · simp [sampleLibs, unary]
  · simp [sampleLibs, unary]

/-! ## The message codec (`client/message.go`) -/

/-- C1. For a key pair `K` on which PKCS #1 v1.5 works, and a message `m` whose
content has at most `Size() - 11` bytes: `EncryptContent(m, K.public)` succeeds,
its result is flagged encrypted, and `DecryptContent` of that result with
`K.private` succeeds and returns `m` with `Encrypted == false`: the content and
`From`, `To`, `TimeSent`, `ID` are those of `m`. -/
theorem EncryptContent_DecryptContent (L : Libs) (K : PrivateKey) (random : Entropy)
    (m : ClientMessage) (hrsa : PKCS1v15Contract L K) (hb64 : Base64Contract L)
    (hlen : m.Content.length + 11 ≤ K.PublicKey.Size) :
    (ClientMessage.EncryptContent L random m K.PublicKey).2 = none ∧
    (ClientMessage.EncryptContent L random m K.PublicKey).1.Encrypted = true ∧
    (ClientMessage.DecryptContent L
      (ClientMessage.EncryptContent L random m K.PublicKey).1 K).2 = none ∧
    (ClientMessage.DecryptContent L
      (ClientMessage.EncryptContent L random m K.PublicKey).1 K).1
        = { m with Encrypted := false } := by
  obtain ⟨c, henc, hdec⟩ := hrsa random m.Content hlen
  simp [ClientMessage.EncryptContent, ClientMessage.DecryptContent, henc, hb64 c, hdec]

/-- Witness for C1: the content "Hello" under a 2048-bit key. -/
theorem EncryptContent_DecryptContent_witness :
    PKCS1v15Contract sampleLibs sampleKey ∧ Base64Contract sampleLibs ∧
    sampleMessage.Content.length + 11 ≤ sampleKey.PublicKey.Size ∧
    (ClientMessage.EncryptContent sampleLibs (fun _ => 0) sampleMessage
      sampleKey.PublicKey).2 = none ∧
    (ClientMessage.EncryptContent sampleLibs (fun _ => 0) sampleMessage
      sampleKey.PublicKey).1.Encrypted = true ∧
    (ClientMessage.DecryptContent sampleLibs
      (ClientMessage.EncryptContent sampleLibs (fun _ => 0) sampleMessage
        sampleKey.PublicKey).1 sampleKey).2 = none ∧
    (ClientMessage.DecryptContent sampleLibs
      (ClientMessage.EncryptContent sampleLibs (fun _ => 0) sampleMessage
        sampleKey.PublicKey).1 sampleKey).1 = { sampleMessage with Encrypted := false } :=
  have hlen : sampleMessage.Content.length + 11 ≤ sampleKey.PublicKey.Size := by
    rw [sampleKey_size]; decide
  ⟨sampleLibs_pkcs1v15 _, sampleLibs_base64, hlen,
    EncryptContent_DecryptContent sampleLibs sampleKey (fun _ => 0) sampleMessage
      (sampleLibs_pkcs1v15 _) sampleLibs_base64 hlen⟩

/-! ## Authentication (`server.go`) -/

/-- C3. A request without Basic credentials, with a username that is no key of
the user store, or with a password that does not verify against the stored hash
is answered by `WriteHeader(401)` alone, whatever handler is wrapped: that
handler is not run and the state of the server is the one before.  On the fresh
writer of a request the response is the same in all three cases: status 401, no
header, no body. -/
theorem AuthenticateMiddleware_rejects (L : Libs) (next : Handler) (w : ResponseWriter)
    (r : Request) (server : Server)
    (h : r.BasicAuth = none ∨
      (∃ user pwd, r.BasicAuth = some (user, pwd) ∧
        server.UserStore.users.get? user = none) ∨
      (∃ user pwd u, r.BasicAuth = some (user, pwd) ∧
        server.UserStore.users.get? user = some u ∧ u.Authenticate L pwd = false)) :
    Server.AuthenticateMiddleware L next w r server
      = some (w.WriteHeader StatusUnauthorized, server) ∧
    Server.AuthenticateMiddleware L next ResponseWriter.fresh r server
      = some (⟨[], some 401, []⟩, server) ∧
    (w.Status = none → (w.WriteHeader StatusUnauthorized).StatusCode = 401) := by
  have key : ∀ w', Server.AuthenticateMiddleware L next w' r server
      = some (w'.WriteHeader StatusUnauthorized, server) := by
    intro w'
    rcases h with h | ⟨user, pwd, h, hu⟩ | ⟨user, pwd, u, h, hu, hp⟩
    · simp [Server.AuthenticateMiddleware, h]
    · simp [Server.AuthenticateMiddleware, h, MemoryUserStore.Find, hu]
    · simp [Server.AuthenticateMiddleware, h, MemoryUserStore.Find, hu, hp]
  refine ⟨key w, ?_, ?_⟩
  · rw [key]; rfl
  · intro hw
    simp [ResponseWriter.WriteHeader, ResponseWriter.StatusCode, hw, StatusUnauthorized]

/-- Witness for C3: user MEP with the password of ROOT, in front of a handler
that would panic. -/
theorem AuthenticateMiddleware_rejects_witness :
    (sampleBadRequest.BasicAuth = none ∨
      (∃ user pwd, sampleBadRequest.BasicAuth = some (user, pwd) ∧
        sampleServer.UserStore.users.get? user = none) ∨
      (∃ user pwd u, sampleBadRequest.BasicAuth = some (user, pwd) ∧
        sampleServer.UserStore.users.get? user = some u ∧
        u.Authenticate sampleLibs pwd = false)) ∧
    Server.AuthenticateMiddleware sampleLibs (fun _ _ _ => none) ResponseWriter.fresh
      sampleBadRequest sampleServer = some (⟨[], some 401, []⟩, sampleServer) :=
  have h : sampleBadRequest.BasicAuth = none ∨
      (∃ user pwd, sampleBadRequest.BasicAuth = some (user, pwd) ∧
        sampleServer.UserStore.users.get? user = none) ∨
      (∃ user pwd u, sampleBadRequest.BasicAuth = some (user, pwd) ∧
        sampleServer.UserStore.users.get? user = some u ∧
        u.Authenticate sampleLibs pwd = false) :=
    Or.inr (Or.inr ⟨ascii "MEP", ascii "GOODBYE", sampleMEP, rfl, by decide, by decide⟩)
  ⟨h, (AuthenticateMiddleware_rejects sampleLibs (fun _ _ _ => none) ResponseWriter.fresh
    sampleBadRequest sampleServer h).2.1⟩

/-! ## The handlers that `Start` registers -/

theorem Start_pubkey (L : Libs) :
    (Server.Start L).get? (ascii "/pubkey")
      = some (Server.AuthenticateMiddleware L
          (coorsHandler.ServeHTTP { next := (Server.keyHandler L).ServeHTTP })) := by
  simp only [Server.Start]
  rw [GoMap.get?_set_ne _ _ _ _ (by decide), GoMap.get?_set_self]

theorem Start_messages (L : Libs) :
    (Server.Start L).get? (ascii "/messages")
      = some (Server.AuthenticateMiddleware L
          (coorsHandler.ServeHTTP { next := (Server.messageHandler L).ServeHTTP })) := by
  simp only [Server.Start]
  rw [GoMap.get?_set_self]

theorem keyHandler_post (L : Libs) :
    (Server.keyHandler L).handlers.get? MethodPost = some (Server.AddUser L) := by
  simp only [Server.keyHandler, MethodPost]
  rw [GoMap.get?_set_self]

theorem messageHandler_post (L : Libs) :
    (Server.messageHandler L).handlers.get? MethodPost = some (Server.AddMessage L) := by
  simp only [Server.messageHandler, MethodPost]
  rw [GoMap.get?_set_self]

theorem messageHandler_get (L : Libs) :
    (Server.messageHandler L).handlers.get? MethodGet = some (Server.GetMessages L) := by
  simp only [Server.messageHandler, MethodGet]
  rw [GoMap.get?_set_ne _ _ _ _ (by decide), GoMap.get?_set_self]

/-- An authenticated request that is no preflight passes the middleware and the
CORS layer: the wrapped handler runs with the principal in the context, on a
writer that carries the origin header. -/
theorem AuthenticateMiddleware_coors_pass (L : Libs) (next : Handler) (w : ResponseWriter)
    (r : Request) (server : Server) (login pwd : GoString) (u : User)
    (hauth : r.BasicAuth = some (login, pwd))
    (hfind : server.UserStore.users.get? login = some u)
    (hpwd : u.Authenticate L pwd = true) (hmethod : r.Method ≠ MethodOptions) :
    Server.AuthenticateMiddleware L (coorsHandler.ServeHTTP { next := next }) w r server
      = next (w.HeaderAdd (ascii "Access-Control-Allow-Origin") (ascii "*"))
          (AddUserToContext r u) server := by
  have h : (AddUserToContext r u).Method ≠ MethodOptions := hmethod
  simp [Server.AuthenticateMiddleware, hauth, MemoryUserStore.Find, hfind, hpwd,
    coorsHandler.ServeHTTP, h]

/-- What `AddUser` does with a well-formed body once the principal is known. -/
theorem AddUser_eq (L : Libs) (w : ResponseWriter) (r : Request) (server : Server) (u : User)
    (jwkKey : RSAPublicJWK) (rsaKey : PublicKey)
    (hmethod : r.Method = MethodPost) (hctx : r.Principal = some u)
    (hparse : L.ParseKey r.Body = .ok (JWK.RSAPublicKey jwkKey))
    (hraw : L.Raw (JWK.RSAPublicKey jwkKey) = .ok rsaKey) :
    Server.AddUser L w r server =
      match server.Keystore.keys.get? u.Username with
      | some _ => some (w.WriteHeader StatusInternalServerError, server)
      | none => some (w.WriteHeader StatusCreated,
          { server with Keystore := ⟨server.Keystore.keys.set u.Username rsaKey⟩ }) := by
  cases hk : server.Keystore.keys.get? u.Username with
  | some old =>
    simp [Server.AddUser, hmethod, hparse, GetUserFromContext, hctx,
      MemoryUserKeystore.AddPublicKey, hk]
  | none =>
    simp [Server.AddUser, hmethod, hparse, GetUserFromContext, hctx,
      MemoryUserKeystore.AddPublicKey, hk, MakePublicKeyFromJWK, hraw]

/-- An authenticated `POST /pubkey` with a well-formed body, served by the
handlers of `Start`. -/
theorem serve_pubkey_post (L : Libs) (r : Request) (server : Server) (login pwd : GoString)
    (u : User) (jwkKey : RSAPublicJWK) (rsaKey : PublicKey)
    (hpath : r.Path = ascii "/pubkey") (hmethod : r.Method = MethodPost)
    (hauth : r.BasicAuth = some (login, pwd))
    (hfind : server.UserStore.users.get? login = some u)
    (hpwd : u.Authenticate L pwd = true)
    (hparse : L.ParseKey r.Body = .ok (JWK.RSAPublicKey jwkKey))
    (hraw : L.Raw (JWK.RSAPublicKey jwkKey) = .ok rsaKey) :
    ServeMux.ServeHTTP (Server.Start L) ResponseWriter.fresh r server =
      match server.Keystore.keys.get? u.Username with
      | some _ => some (⟨[(ascii "Access-Control-Allow-Origin", ascii "*")], some 500, []⟩,
          server)
      | none => some (⟨[(ascii "Access-Control-Allow-Origin", ascii "*")], some 201, []⟩,
          { server with Keystore := ⟨server.Keystore.keys.set u.Username rsaKey⟩ }) := by
  have hopt : r.Method ≠ MethodOptions := by rw [hmethod]; decide
  have hm : (AddUserToContext r u).Method = MethodPost := hmethod
  simp only [ServeMux.ServeHTTP, hpath, Start_pubkey]
  rw [AuthenticateMiddleware_coors_pass L _ _ r server login pwd u hauth hfind hpwd hopt]
  simp only [mutliMethodHandler.ServeHTTP, hm, keyHandler_post]
  rw [AddUser_eq L _ _ server u jwkKey rsaKey hm rfl hparse hraw]
  cases server.Keystore.keys.get? u.Username <;> rfl

/-- C4, as amended. An authenticated `POST /pubkey` of user `u` with a valid RSA
JWK body, served by the handlers of `Start`, changes no keystore entry of another
userID, whatever else the request carries.  When `u.Username` has no key yet,
the answer is 201 and the keystore maps `u.Username` to the key of the body; when
it has one, the answer is 500 and the server is left as it was. -/
theorem AddUser_registers_principal (L : Libs) (r : Request) (server : Server)
    (login pwd : GoString) (u : User) (jwkKey : RSAPublicJWK) (rsaKey : PublicKey)
    (hpath : r.Path = ascii "/pubkey") (hmethod : r.Method = MethodPost)
    (hauth : r.BasicAuth = some (login, pwd))
    (hfind : server.UserStore.users.get? login = some u)
    (hpwd : u.Authenticate L pwd = true)
    (hparse : L.ParseKey r.Body = .ok (JWK.RSAPublicKey jwkKey))
    (hraw : L.Raw (JWK.RSAPublicKey jwkKey) = .ok rsaKey) :
    ∃ w server', ServeMux.ServeHTTP (Server.Start L) ResponseWriter.fresh r server
        = some (w, server') ∧
      (∀ k, k ≠ u.Username → server'.Keystore.keys.get? k = server.Keystore.keys.get? k) ∧
      (server.Keystore.keys.get? u.Username = none →
        w.StatusCode = 201 ∧ server'.Keystore.keys.get? u.Username = some rsaKey) ∧
      (server.Keystore.keys.get? u.Username ≠ none →
        w.StatusCode = 500 ∧ server' = server) := by
  rw [serve_pubkey_post L r server login pwd u jwkKey rsaKey hpath hmethod hauth hfind hpwd
    hparse hraw]
  cases hk : server.Keystore.keys.get? u.Username with
  | some old =>
    exact ⟨_, _, rfl, fun _ _ => rfl, fun h => by simp at h, fun _ => ⟨rfl, rfl⟩⟩
  | none =>
    exact ⟨_, _, rfl, fun k hne => GoMap.get?_set_ne _ _ _ _ hne,
      fun _ => ⟨rfl, GoMap.get?_set_self _ _ _⟩, fun h => by simp at h⟩

/-- Witness for C4 as amended: MEP registers a first key while naming ROOT in
the query. -/
theorem AddUser_registers_principal_witness :
    ∃ w server', ServeMux.ServeHTTP (Server.Start sampleLibs) ResponseWriter.fresh
        sampleRegisterRequest sampleServer = some (w, server') ∧
      (∀ k, k ≠ ascii "MEP" →
        server'.Keystore.keys.get? k = sampleServer.Keystore.keys.get? k) ∧
      (sampleServer.Keystore.keys.get? (ascii "MEP") = none →
        w.StatusCode = 201 ∧
        server'.Keystore.keys.get? (ascii "MEP") = some { N := 7, E := 3 }) ∧
      (sampleServer.Keystore.keys.get? (ascii "MEP") ≠ none →
        w.StatusCode = 500 ∧ server' = sampleServer) :=
  AddUser_registers_principal sampleLibs sampleRegisterRequest sampleServer
    (ascii "MEP") (ascii "HELLO") sampleMEP
    { n := ascii "another", e := [1, 0, 1] } { N := 7, E := 3 }
    rfl rfl rfl (by decide) (by decide) rfl rfl

/-- C4 as stated fails when the user already has a key: MEP, holder of the key
`{N: 5, E: 3}`, is authenticated and posts the valid JWK of `{N: 7, E: 3}`; the
answer is 500 and the keystore still maps MEP to `{N: 5, E: 3}`. -/
theorem AddUser_existing_key_not_replaced :
    sampleRegisterRequest.Path = ascii "/pubkey" ∧
    sampleRegisterRequest.Method = MethodPost ∧
    sampleRegisterRequest.BasicAuth = some (ascii "MEP", ascii "HELLO") ∧
    (∃ u, sampleServerWithKey.UserStore.users.get? (ascii "MEP") = some u ∧
      u.Username = ascii "MEP" ∧ u.Authenticate sampleLibs (ascii "HELLO") = true) ∧
    sampleLibs.ParseKey sampleRegisterRequest.Body
      = .ok (JWK.RSAPublicKey { n := ascii "another", e := [1, 0, 1] }) ∧
    sampleLibs.Raw (JWK.RSAPublicKey { n := ascii "another", e := [1, 0, 1] })
      = .ok { N := 7, E := 3 } ∧
    ∃ w server', ServeMux.ServeHTTP (Server.Start sampleLibs) ResponseWriter.fresh
        sampleRegisterRequest sampleServerWithKey = some (w, server') ∧
      w.StatusCode = 500 ∧
      server'.Keystore.keys.get? (ascii "MEP") = some { N := 5, E := 3 } ∧
      server'.Keystore.keys.get? (ascii "MEP") ≠ some { N := 7, E := 3 } := by
  refine ⟨rfl, rfl, rfl, ⟨sampleMEP, by decide, by decide, by decide⟩, rfl, rfl, ?_⟩
  rw [serve_pubkey_post sampleLibs sampleRegisterRequest sampleServerWithKey
    (ascii "MEP") (ascii "HELLO") sampleMEP
    { n := ascii "another", e := [1, 0, 1] } { N := 7, E := 3 }
    rfl rfl rfl (by decide) (by decide) rfl rfl]
  exact ⟨_, _, rfl, rfl, by decide, by decide⟩

/-! ## Sending and receiving (`client.go` against `server.go`) -/

/-- An authenticated `POST /messages` whose body decodes to `msg`, served by the
handlers of `Start`. -/
theorem serve_messages_post (L : Libs) (r : Request) (server : Server) (login pwd : GoString)
    (u : User) (msg : Message)
    (hpath : r.Path = ascii "/messages") (hmethod : r.Method = MethodPost)
    (hauth : r.BasicAuth = some (login, pwd))
    (hfind : server.UserStore.users.get? login = some u)
    (hpwd : u.Authenticate L pwd = true)
    (hbody : L.DecodeMessage r.Body = .ok msg) :
    ServeMux.ServeHTTP (Server.Start L) ResponseWriter.fresh r server =
      match server.MessageStore.Add msg with
      | (some _, store) =>
        some (⟨[(ascii "Access-Control-Allow-Origin", ascii "*")], some 500, []⟩,
          { server with MessageStore := store })
      | (none, store) =>
        some (⟨[(ascii "Access-Control-Allow-Origin", ascii "*")], none, []⟩,
          { server with MessageStore := store }) := by
  have hopt : r.Method ≠ MethodOptions := by rw [hmethod]; decide
  have hm : (AddUserToContext r u).Method = MethodPost := hmethod
  have hb : L.DecodeMessage (AddUserToContext r u).Body = .ok msg := hbody
  simp only [ServeMux.ServeHTTP, hpath, Start_messages]
  rw [AuthenticateMiddleware_coors_pass L _ _ r server login pwd u hauth hfind hpwd hopt]
  simp only [mutliMethodHandler.ServeHTTP, hm, messageHandler_post]
  simp only [Server.AddMessage, hm, hb, ne_eq, not_true_eq_false, if_false]
  rcases server.MessageStore.Add msg with ⟨_ | e, store⟩ <;> rfl

/-- An authenticated `GET /messages`, served by the handlers of `Start`. -/
theorem serve_messages_get (L : Libs) (r : Request) (server : Server) (login pwd : GoString)
    (u : User)
    (hpath : r.Path = ascii "/messages") (hmethod : r.Method = MethodGet)
    (hauth : r.BasicAuth = some (login, pwd))
    (hfind : server.UserStore.users.get? login = some u)
    (hpwd : u.Authenticate L pwd = true) :
    ServeMux.ServeHTTP (Server.Start L) ResponseWriter.fresh r server =
      match L.EncodeMessages
        (server.MessageStore.FindAllByUserID (r.QueryGet (ascii "userID"))).1 with
      | .error _ =>
        some (⟨[(ascii "Access-Control-Allow-Origin", ascii "*")], some 500, []⟩, server)
      | .ok data =>
        some (⟨[(ascii "Access-Control-Allow-Origin", ascii "*")], some 200, data⟩,
          server) := by
  have hopt : r.Method ≠ MethodOptions := by rw [hmethod]; decide
  have hm : (AddUserToContext r u).Method = MethodGet := hmethod
  have hq : (AddUserToContext r u).QueryGet (ascii "userID") = r.QueryGet (ascii "userID") :=
    rfl
  simp only [ServeMux.ServeHTTP, hpath, Start_messages]
  rw [AuthenticateMiddleware_coors_pass L _ _ r server login pwd u hauth hfind hpwd hopt]
  simp only [mutliMethodHandler.ServeHTTP, hm, messageHandler_get]
  simp only [Server.GetMessages, hm, hq, ne_eq, not_true_eq_false, if_false,
    MemoryMessageStore.FindAllByUserID]
  cases L.EncodeMessages _ <;> rfl

/-- Without a colon in the user name, the server reads the credentials that the
client set. -/
theorem cutColon_append (username password : GoString) (h : colon ∉ username) :
    cutColon (username ++ colon :: password) = some (username, password) := by
  induction username with
  | nil => simp [cutColon]
  | cons b rest ih =>
    rw [List.mem_cons, not_or] at h
    have hb : b ≠ colon := fun hb => h.1 hb.symm
    simp [cutColon, hb, ih h.2]

/-- `GetMessages` by a client whose credentials the server accepts and whose
query matches one stored message, encrypted to the key of the client. -/
theorem GetMessages_single (L : Libs) (cli : Client) (server : Server)
    (userID login pwd : GoString) (u : User) (msg : Message) (plain c : GoString)
    (hjson : JSONRoundTrip L msg) (hb64 : Base64Contract L)
    (hurl : L.URLPath (cli.ServerHost ++ ascii "/messages") = .ok (ascii "/messages"))
    (hcred : cutColon (cli.Principal.Username ++ colon :: cli.Principal.Password)
      = some (login, pwd))
    (hfind : server.UserStore.users.get? login = some u)
    (hpwd : u.Authenticate L pwd = true)
    (hall : (server.MessageStore.FindAllByUserID userID).1 = [msg])
    (hcontent : msg.Content = L.EncodeToString c)
    (hdec : L.DecryptPKCS1v15 cli.PrivateKey c = .ok plain) :
    (cli.GetMessages L userID server).1
      = .ok [{ msg with Content := plain, Encrypted := false }] := by
  obtain ⟨b, henc, hdecode⟩ := hjson.2
  have hq : Request.QueryGet
      { Method := MethodGet, Path := ascii "/messages",
        Query := [] ++ [(ascii "userID", userID)],
        BasicAuth := some (login, pwd),
        Body := [], Principal := none } (ascii "userID") = userID := by
    simp [Request.QueryGet]
  simp only [Client.GetMessages, NewRequest, hurl, Request.SetBasicAuth, hcred, Do]
  rw [serve_messages_get L _ server login pwd u rfl rfl rfl hfind hpwd, hq, hall]
  simp [henc, ResponseWriter.StatusCode, StatusOK, hdecode, ClientMessage.DecryptContent,
    hcontent, hb64 c, hdec]

theorem GoMap.entries_eq_nil_of_len {κ ν : Type} (m : GoMap κ ν) (h : m.len = 0) :
    m.entries = [] := List.length_eq_zero.1 h

/-- A send by a client whose credentials, as the server reads them, name no
registered user: the server answers 401 and stores nothing. -/
theorem SendEncryptedMessage_unauthorized (L : Libs) (random : Entropy) (cli : Client)
    (message : ClientMessage) (key : PublicKey) (server : Server) (c b login pwd : GoString)
    (henc : L.EncryptPKCS1v15 random key message.Content = .ok c)
    (hmar : L.MarshalMessage
      { message with Content := L.EncodeToString c, Encrypted := true } = .ok b)
    (hurl : L.URLPath (cli.ServerHost ++ ascii "/messages") = .ok (ascii "/messages"))
    (hcred : cutColon (cli.Principal.Username ++ colon :: cli.Principal.Password)
      = some (login, pwd))
    (hfind : server.UserStore.users.get? login = none) :
    cli.SendEncryptedMessage L random message key server
      = some (some (Error.errorString (ascii "bad status of" ++ L.Status 401)), server) := by
  simp only [Client.SendEncryptedMessage, ClientMessage.EncryptContent, henc, Client.SendMessage,
    hmar, NewRequest, hurl, Request.SetBasicAuth, hcred, Do, ServeMux.ServeHTTP, Start_messages]
  simp [Server.AuthenticateMiddleware, MemoryUserStore.Find, hfind, ResponseWriter.WriteHeader,
    ResponseWriter.fresh, ResponseWriter.StatusCode, StatusUnauthorized, StatusOK]

/-- C2, as amended. Users S and R, whose names hold no colon, are registered and
their clients hold their passwords and reach the server; R has registered the
public key of its key pair; the message store is empty; `P` is short enough for
that key; JSON carries the message that S sends.  Then
`SendEncryptedMessage(MakeClientMessage(R, S, P), key)` by S returns no error,
and afterwards `GetMessages(R)` by R returns exactly one message, the message S
made: `To == R`, `From == S`, `Content == P`.  (S and R need not differ.) -/
theorem SendEncryptedMessage_GetMessages (L : Libs) (now : Nat) (idRandom random : Entropy)
    (cliS cliR : Client) (server : Server) (uS uR : User) (key : PublicKey) (P : GoString)
    (hrsa : PKCS1v15Contract L cliR.PrivateKey) (hb64 : Base64Contract L)
    (hjson : ∀ c, L.EncryptPKCS1v15 random key P = .ok c → JSONRoundTrip L
      { MakeClientMessage L now idRandom cliR.Principal.Username cliS.Principal.Username P
        with Content := L.EncodeToString c, Encrypted := true })
    (hcolonS : colon ∉ cliS.Principal.Username)
    (hcolonR : colon ∉ cliR.Principal.Username)
    (hurlS : L.URLPath (cliS.ServerHost ++ ascii "/messages") = .ok (ascii "/messages"))
    (hurlR : L.URLPath (cliR.ServerHost ++ ascii "/messages") = .ok (ascii "/messages"))
    (hS : server.UserStore.users.get? cliS.Principal.Username = some uS)
    (hSpwd : uS.Authenticate L cliS.Principal.Password = true)
    (hR : server.UserStore.users.get? cliR.Principal.Username = some uR)
    (hRpwd : uR.Authenticate L cliR.Principal.Password = true)
    (hkey : server.Keystore.PublicKeyByUserID cliR.Principal.Username = .ok key)
    (hown : key = cliR.PrivateKey.PublicKey)
    (hlen : P.length + 11 ≤ key.Size)
    (hempty : server.MessageStore.messages.len = 0) :
    ∃ server', cliS.SendEncryptedMessage L random
        (MakeClientMessage L now idRandom cliR.Principal.Username cliS.Principal.Username P)
        key server = some (none, server') ∧
      (cliR.GetMessages L cliR.Principal.Username server').1
        = .ok [MakeClientMessage L now idRandom cliR.Principal.Username
            cliS.Principal.Username P] ∧
      (MakeClientMessage L now idRandom cliR.Principal.Username
        cliS.Principal.Username P).To = cliR.Principal.Username ∧
      (MakeClientMessage L now idRandom cliR.Principal.Username
        cliS.Principal.Username P).From = cliS.Principal.Username ∧
      (MakeClientMessage L now idRandom cliR.Principal.Username
        cliS.Principal.Username P).Content = P := by
  subst hown
  clear hkey
  obtain ⟨c, henc, hdec⟩ := hrsa random P hlen
  have hjsonc : JSONRoundTrip L
      { From := cliS.Principal.Username, To := cliR.Principal.Username, TimeSent := now,
        ID := MakeMessageID L idRandom, Content := L.EncodeToString c, Encrypted := true } :=
    hjson c henc
  obtain ⟨b, hmar, hdecode⟩ := hjsonc.1
  have hnil := GoMap.entries_eq_nil_of_len _ hempty
  have hcredS := cutColon_append _ cliS.Principal.Password hcolonS
  have hcredR := cutColon_append _ cliR.Principal.Password hcolonR
  have hsend : cliS.SendEncryptedMessage L random
      (MakeClientMessage L now idRandom cliR.Principal.Username cliS.Principal.Username P)
      cliR.PrivateKey.PublicKey server
      = some (none, { server with MessageStore := ⟨server.MessageStore.messages.set
          (MakeMessageID L idRandom)
          { From := cliS.Principal.Username, To := cliR.Principal.Username, TimeSent := now,
            ID := MakeMessageID L idRandom, Content := L.EncodeToString c,
            Encrypted := true }⟩ }) := by
    simp only [Client.SendEncryptedMessage, ClientMessage.EncryptContent, MakeClientMessage,
      MakeMessage, henc, Client.SendMessage, hmar, NewRequest, hurlS, Request.SetBasicAuth,
      hcredS, Do]
    rw [serve_messages_post L _ server _ _ uS _ rfl rfl rfl hS hSpwd hdecode]
    simp [MemoryMessageStore.Add, GoMap.get?, hnil, ResponseWriter.StatusCode, StatusOK]
  refine ⟨_, hsend, ?_, rfl, rfl, rfl⟩
  refine (GetMessages_single L cliR _ cliR.Principal.Username cliR.Principal.Username
    cliR.Principal.Password uR
    { From := cliS.Principal.Username, To := cliR.Principal.Username, TimeSent := now,
      ID := MakeMessageID L idRandom, Content := L.EncodeToString c, Encrypted := true }
    P c hjsonc hb64 hurlR hcredR ?_ hRpwd ?_ ?_ hdec).trans ?_
  · exact hR
  · simp [MemoryMessageStore.FindAllByUserID, GoMap.set, hnil]
  · rfl
  · rfl

/-- Witness for C2 as amended: the scenario of `TestSendAndReceiveMessage`, MEP
sending "Hello!" to ROOT. -/
theorem SendEncryptedMessage_GetMessages_witness :
    ∃ server', sampleClientMEP.SendEncryptedMessage sampleLibs (fun _ => 0)
        (MakeClientMessage sampleLibs 0 (fun _ => 7) (ascii "ROOT") (ascii "MEP")
          (ascii "Hello!"))
        sampleKey.PublicKey sampleServerROOTKey = some (none, server') ∧
      (sampleClientROOT.GetMessages sampleLibs (ascii "ROOT") server').1
        = .ok [MakeClientMessage sampleLibs 0 (fun _ => 7) (ascii "ROOT") (ascii "MEP")
            (ascii "Hello!")] ∧
      (MakeClientMessage sampleLibs 0 (fun _ => 7) (ascii "ROOT") (ascii "MEP")
        (ascii "Hello!")).To = ascii "ROOT" ∧
      (MakeClientMessage sampleLibs 0 (fun _ => 7) (ascii "ROOT") (ascii "MEP")
        (ascii "Hello!")).From = ascii "MEP" ∧
      (MakeClientMessage sampleLibs 0 (fun _ => 7) (ascii "ROOT") (ascii "MEP")
        (ascii "Hello!")).Content = ascii "Hello!" :=
  SendEncryptedMessage_GetMessages sampleLibs 0 (fun _ => 7) (fun _ => 0)
    sampleClientMEP sampleClientROOT sampleServerROOTKey sampleMEP sampleROOT
    sampleKey.PublicKey (ascii "Hello!")
    (sampleLibs_pkcs1v15 _) sampleLibs_base64 (fun _ _ => sampleLibs_json _)
    (by decide) (by decide) rfl rfl
    (by decide) (by decide) (by decide) (by decide) rfl rfl
    (by rw [sampleKey_size]; decide) rfl

/-- C2 as stated fails for a registered user whose name holds a colon.  User
`A:B` is registered with the password "pw", ROOT is registered with its public
key, and the message store is empty; the client of `A:B` sends "Hello!" to ROOT.
The server reads the credentials as user `A` with password `B:pw`, answers 401,
and `SendEncryptedMessage` returns the error of the bad status; the store stays
empty and `GetMessages("ROOT")` by ROOT returns no message. -/
theorem SendEncryptedMessage_colon_user_unauthorized :
    ascii "A:B" ≠ ascii "ROOT" ∧
    sampleServerColon.UserStore.Find (ascii "A:B") = .ok sampleColonUser ∧
    sampleColonUser.Authenticate sampleLibs sampleClientColon.Principal.Password = true ∧
    sampleServerColon.UserStore.Find (ascii "ROOT") = .ok sampleROOT ∧
    sampleROOT.Authenticate sampleLibs sampleClientROOT.Principal.Password = true ∧
    sampleServerColon.Keystore.PublicKeyByUserID (ascii "ROOT") = .ok sampleKey.PublicKey ∧
    (ascii "Hello!").length + 11 ≤ sampleKey.PublicKey.Size ∧
    sampleServerColon.MessageStore.messages.len = 0 ∧
    sampleClientColon.SendEncryptedMessage sampleLibs (fun _ => 0)
        (MakeClientMessage sampleLibs 0 (fun _ => 7) (ascii "ROOT") (ascii "A:B")
          (ascii "Hello!"))
        sampleKey.PublicKey sampleServerColon
      = some (some (Error.errorString (ascii "bad status of" ++ sampleLibs.Status 401)),
          sampleServerColon) ∧
    (sampleClientROOT.GetMessages sampleLibs (ascii "ROOT") sampleServerColon).1 = .ok [] := by
  have hlen : (ascii "Hello!").length + 11 ≤ sampleKey.PublicKey.Size := by
    rw [sampleKey_size]; decide
  obtain ⟨c, henc, _⟩ := sampleLibs_pkcs1v15 sampleKey (fun _ => 0) (ascii "Hello!") hlen
  refine ⟨by decide, rfl, by decide, rfl, by decide, rfl, hlen, rfl, ?_, ?_⟩
  · exact SendEncryptedMessage_unauthorized sampleLibs (fun _ => 0) sampleClientColon _
      sampleKey.PublicKey sampleServerColon c _ (ascii "A") (ascii "B:pw") henc rfl rfl
      (by decide) (by decide)
  · simp only [Client.GetMessages, NewRequest, Request.SetBasicAuth, Do]
    have hurl : sampleLibs.URLPath (sampleClientROOT.ServerHost ++ ascii "/messages")
        = .ok (ascii "/messages") := rfl
    have hcred : cutColon (sampleClientROOT.Principal.Username ++
        colon :: sampleClientROOT.Principal.Password)
        = some (ascii "ROOT", ascii "GOODBYE") := by decide
    simp only [hurl, hcred]
    rw [serve_messages_get sampleLibs _ sampleServerColon (ascii "ROOT") (ascii "GOODBYE")
      sampleROOT rfl rfl rfl (by decide) (by decide)]
    have hall : (sampleServerColon.MessageStore.FindAllByUserID
        (Request.QueryGet
          { Method := MethodGet, Path := ascii "/messages",
            Query := [] ++ [(ascii "userID", ascii "ROOT")],
            BasicAuth := some (ascii "ROOT", ascii "GOODBYE"), Body := [],
            Principal := none } (ascii "userID"))).1 = [] := rfl
    rw [hall]
    simp [sampleLibs, unary, ResponseWriter.StatusCode, StatusOK,
      ClientMessage.DecryptContent]

/-! ## The key directory (`userkeystore.go`) -/

/-- C11. When `AddPublicKey(u, k1)` succeeds, a following `AddPublicKey(u, k2)`
fails with `ErrKeyAlreadyExists{u}` and leaves the keystore as it was, and
`PublicKeyByUserID(u)` still returns the RSA key of `k1`. -/
theorem AddPublicKey_twice (L : Libs) (keystore : MemoryUserKeystore) (u : GoString)
    (k1 k2 : RSAPublicJWK) (h : (keystore.AddPublicKey L u k1).1 = none) :
    ((keystore.AddPublicKey L u k1).2.AddPublicKey L u k2).1
      = some (Error.ErrKeyAlreadyExists u) ∧
    ((keystore.AddPublicKey L u k1).2.AddPublicKey L u k2).2
      = (keystore.AddPublicKey L u k1).2 ∧
    ∃ rsa1, MakePublicKeyFromJWK L (JWK.RSAPublicKey k1) = .ok rsa1 ∧
      ((keystore.AddPublicKey L u k1).2.AddPublicKey L u k2).2.PublicKeyByUserID u
        = .ok rsa1 := by
  cases hk : keystore.keys.get? u with
  | some old => simp [MemoryUserKeystore.AddPublicKey, hk] at h
  | none =>
    cases hraw : MakePublicKeyFromJWK L (JWK.RSAPublicKey k1) with
    | error err => simp [MemoryUserKeystore.AddPublicKey, hk, hraw] at h
    | ok rsa1 =>
      have hfirst : keystore.AddPublicKey L u k1 = (none, ⟨keystore.keys.set u rsa1⟩) := by
        simp [MemoryUserKeystore.AddPublicKey, hk, hraw]
      have hget : (keystore.keys.set u rsa1).get? u = some rsa1 := GoMap.get?_set_self _ _ _
      rw [hfirst]
      refine ⟨?_, ?_, rsa1, rfl, ?_⟩
      · simp [MemoryUserKeystore.AddPublicKey, hget]
      · simp [MemoryUserKeystore.AddPublicKey, hget]
      · simp [MemoryUserKeystore.AddPublicKey, MemoryUserKeystore.PublicKeyByUserID, hget]

/-- Witness for C11: MEP registers a key of 5 modulus bytes and then one of 7. -/
theorem AddPublicKey_twice_witness :
    ((MakeMemoryUserKeystore.AddPublicKey sampleLibs (ascii "MEP")
        { n := ascii "first", e := [1, 0, 1] }).2.AddPublicKey sampleLibs (ascii "MEP")
        { n := ascii "another", e := [1, 0, 1] }).1
      = some (Error.ErrKeyAlreadyExists (ascii "MEP")) ∧
    ((MakeMemoryUserKeystore.AddPublicKey sampleLibs (ascii "MEP")
        { n := ascii "first", e := [1, 0, 1] }).2.AddPublicKey sampleLibs (ascii "MEP")
        { n := ascii "another", e := [1, 0, 1] }).2
      = (MakeMemoryUserKeystore.AddPublicKey sampleLibs (ascii "MEP")
        { n := ascii "first", e := [1, 0, 1] }).2 ∧
    ∃ rsa1, MakePublicKeyFromJWK sampleLibs
        (JWK.RSAPublicKey { n := ascii "first", e := [1, 0, 1] }) = .ok rsa1 ∧
      ((MakeMemoryUserKeystore.AddPublicKey sampleLibs (ascii "MEP")
        { n := ascii "first", e := [1, 0, 1] }).2.AddPublicKey sampleLibs (ascii "MEP")
        { n := ascii "another", e := [1, 0, 1] }).2.PublicKeyByUserID (ascii "MEP")
        = .ok rsa1 :=
  AddPublicKey_twice sampleLibs MakeMemoryUserKeystore (ascii "MEP")
    { n := ascii "first", e := [1, 0, 1] } { n := ascii "another", e := [1, 0, 1] }
    (by decide)

/-! ## The user store (`user.go`) -/

/-- What `Delete` does: with a record for the user it returns
`ErrUserDoesNotExist` and keeps the store; without one it returns no error. -/
theorem MemoryUserStore.Delete_eq (us : MemoryUserStore) (user : User) :
    (∀ found, us.users.get? user.Username = some found →
      us.Delete user = (some (Error.ErrUserDoesNotExist user.Username), us)) ∧
    (us.users.get? user.Username = none → (us.Delete user).1 = none) := by
  constructor
  · intro found h
    simp [MemoryUserStore.Delete, h]
  · intro h
    simp [MemoryUserStore.Delete, h]

/-- C12 fails on the code. `Delete` of the stored user MEP returns
`ErrUserDoesNotExist{"MEP"}` and `Find("MEP")` still succeeds, where the key
directory's `DeletePublicKeyByUserID` removes a stored key without error; `Delete`
of a user that is not stored returns no error, where the key directory's delete
returns `ErrKeyDoesNotExist`. -/
theorem Delete_stored_user_fails :
    sampleUsers.Find (ascii "MEP") = .ok sampleMEP ∧
    (sampleUsers.Delete sampleMEP).1 = some (Error.ErrUserDoesNotExist (ascii "MEP")) ∧
    (sampleUsers.Delete sampleMEP).2.Find (ascii "MEP") = .ok sampleMEP ∧
    (sampleServerWithKey.Keystore.DeletePublicKeyByUserID (ascii "MEP")).1 = none ∧
    (sampleServerWithKey.Keystore.DeletePublicKeyByUserID (ascii "MEP")).2.keys.get?
      (ascii "MEP") = none ∧
    (MakeMemoryUserStore.Delete sampleMEP).1 = none ∧
    (MakeMemoryUserKeystore.DeletePublicKeyByUserID (ascii "MEP")).1
      = some (Error.ErrKeyDoesNotExist (ascii "MEP")) :=
  ⟨rfl, by decide, rfl, by decide, by decide, by decide, by decide⟩

/-! ## Making a message (`client.go`, `types/message.go`) -/

/-- C17. `MakeClientMessage(to, from, content)` returns a message with
`To == to`, `From == from`, `Content == content` and `Encrypted == false`,
whatever the clock and the random source give. -/
theorem MakeClientMessage_fields (L : Libs) (now : Nat) (random : Entropy)
    (to_ from_ content : GoString) :
    (MakeClientMessage L now random to_ from_ content).To = to_ ∧
    (MakeClientMessage L now random to_ from_ content).From = from_ ∧
    (MakeClientMessage L now random to_ from_ content).Content = content ∧
    (MakeClientMessage L now random to_ from_ content).Encrypted = false :=
  ⟨rfl, rfl, rfl, rfl⟩

/-! ## Method dispatch and the CORS layer (`server.go`) -/

/-- C15. A `mutliMethodHandler` that holds a handler for GET and one for POST,
as both handlers of `Start` do, answers a GET request with what the GET handler
does, a POST request with what the POST handler does, and a request with any
other method with `WriteHeader(405)` on the unchanged server, running neither.
Whenever it hands a request on, to either handler of either path, the method is
GET or POST. -/
theorem mutliMethodHandler_dispatch (L : Libs) (onGet onPost : Handler) (w : ResponseWriter)
    (r : Request) (server : Server) :
    (r.Method = MethodGet →
      mutliMethodHandler.ServeHTTP
        { handlers := (GoMap.empty.set (ascii "GET") onGet).set (ascii "POST") onPost }
        w r server = onGet w r server) ∧
    (r.Method = MethodPost →
      mutliMethodHandler.ServeHTTP
        { handlers := (GoMap.empty.set (ascii "GET") onGet).set (ascii "POST") onPost }
        w r server = onPost w r server) ∧
    (r.Method ≠ MethodGet → r.Method ≠ MethodPost →
      mutliMethodHandler.ServeHTTP
        { handlers := (GoMap.empty.set (ascii "GET") onGet).set (ascii "POST") onPost }
        w r server = some (w.WriteHeader StatusMethodNotAllowed, server) ∧
      (w.Status = none → (w.WriteHeader StatusMethodNotAllowed).StatusCode = 405)) ∧
    Server.keyHandler L
      = { handlers := (GoMap.empty.set (ascii "GET") (Server.GetPublicKeyByUser L)).set
            (ascii "POST") (Server.AddUser L) } ∧
    Server.messageHandler L
      = { handlers := (GoMap.empty.set (ascii "GET") (Server.GetMessages L)).set
            (ascii "POST") (Server.AddMessage L) } := by
  refine ⟨?_, ?_, ?_, rfl, rfl⟩
  · intro h
    simp only [mutliMethodHandler.ServeHTTP, h, MethodGet]
    rw [GoMap.get?_set_ne _ _ _ _ (by decide), GoMap.get?_set_self]
  · intro h
    simp only [mutliMethodHandler.ServeHTTP, h, MethodPost]
    rw [GoMap.get?_set_self]
  · intro hg hp
    constructor
    · have hp' : r.Method ≠ ascii "POST" := hp
      have hg' : r.Method ≠ ascii "GET" := hg
      simp only [mutliMethodHandler.ServeHTTP]
      rw [GoMap.get?_set_ne _ _ _ _ hp', GoMap.get?_set_ne _ _ _ _ hg']
      rfl
    · intro hw
      simp [ResponseWriter.WriteHeader, ResponseWriter.StatusCode, hw, StatusMethodNotAllowed]

/-- The CORS layer on a preflight request: four headers, status 204, and the
wrapped handler is not run. -/
theorem coorsHandler_preflight (next : Handler) (r : Request) (server : Server)
    (hmethod : r.Method = MethodOptions) :
    coorsHandler.ServeHTTP { next := next } ResponseWriter.fresh r server
      = some (⟨[(ascii "Access-Control-Allow-Origin", ascii "*"),
          (ascii "Access-Control-Allow-Methods", ascii "POST, GET, OPTIONS"),
          (ascii "Access-Control-Allow-Headers", ascii "Content-Type"),
          (ascii "Access-Control-Max-Age", ascii "86400")], some 204, []⟩, server) := by
  simp [coorsHandler.ServeHTTP, hmethod, ResponseWriter.HeaderAdd, ResponseWriter.fresh,
    ResponseWriter.WriteHeader, StatusNoContent]

/-- The middleware hands an authenticated request on, with the principal in its
context. -/
theorem AuthenticateMiddleware_pass (L : Libs) (next : Handler) (w : ResponseWriter)
    (r : Request) (server : Server) (login pwd : GoString) (u : User)
    (hauth : r.BasicAuth = some (login, pwd))
    (hfind : server.UserStore.users.get? login = some u)
    (hpwd : u.Authenticate L pwd = true) :
    Server.AuthenticateMiddleware L next w r server = next w (AddUserToContext r u) server := by
  simp [Server.AuthenticateMiddleware, hauth, MemoryUserStore.Find, hfind, hpwd]

/-- The middleware on a fresh writer, for a request without Basic credentials,
with a user name that is not registered or with a password that does not verify:
status 401, nothing else, and the state of the server as before. -/
theorem AuthenticateMiddleware_unauthorized (L : Libs) (next : Handler) (r : Request)
    (server : Server)
    (h : r.BasicAuth = none ∨
      (∃ user pwd, r.BasicAuth = some (user, pwd) ∧
        server.UserStore.users.get? user = none) ∨
      (∃ user pwd u, r.BasicAuth = some (user, pwd) ∧
        server.UserStore.users.get? user = some u ∧ u.Authenticate L pwd = false)) :
    Server.AuthenticateMiddleware L next ResponseWriter.fresh r server
      = some (⟨[], some 401, []⟩, server) := by
  rcases h with h | ⟨user, pwd, h, hu⟩ | ⟨user, pwd, u, h, hu, hp⟩
  · simp [Server.AuthenticateMiddleware, h, ResponseWriter.WriteHeader, ResponseWriter.fresh,
      StatusUnauthorized]
  · simp [Server.AuthenticateMiddleware, h, MemoryUserStore.Find, hu,
      ResponseWriter.WriteHeader, ResponseWriter.fresh, StatusUnauthorized]
  · simp [Server.AuthenticateMiddleware, h, MemoryUserStore.Find, hu, hp,
      ResponseWriter.WriteHeader, ResponseWriter.fresh, StatusUnauthorized]

/-- C14, as amended. An OPTIONS request to `/pubkey` or `/messages` that carries
the credentials of a registered user is answered, by the handlers of `Start`,
with status 204 and the headers `Access-Control-Allow-Origin`,
`Access-Control-Allow-Methods`, `Access-Control-Allow-Headers` and
`Access-Control-Max-Age`; the server state is unchanged, and the answer is the
same whatever handler the CORS layer wraps: the method dispatcher is not run.
An OPTIONS request to these paths without Basic credentials, with a user name
that is not registered or with a password that does not verify is answered with
status 401 and no header. -/
theorem Start_preflight_authenticated (L : Libs) (r : Request) (server : Server)
    (login pwd : GoString) (u : User)
    (hmethod : r.Method = MethodOptions)
    (hpath : r.Path = ascii "/pubkey" ∨ r.Path = ascii "/messages")
    (hauth : r.BasicAuth = some (login, pwd))
    (hfind : server.UserStore.users.get? login = some u)
    (hpwd : u.Authenticate L pwd = true) :
    ServeMux.ServeHTTP (Server.Start L) ResponseWriter.fresh r server
      = some (⟨[(ascii "Access-Control-Allow-Origin", ascii "*"),
          (ascii "Access-Control-Allow-Methods", ascii "POST, GET, OPTIONS"),
          (ascii "Access-Control-Allow-Headers", ascii "Content-Type"),
          (ascii "Access-Control-Max-Age", ascii "86400")], some 204, []⟩, server) ∧
    (∀ next : Handler,
      Server.AuthenticateMiddleware L (coorsHandler.ServeHTTP { next := next })
        ResponseWriter.fresh r server
      = some (⟨[(ascii "Access-Control-Allow-Origin", ascii "*"),
          (ascii "Access-Control-Allow-Methods", ascii "POST, GET, OPTIONS"),
          (ascii "Access-Control-Allow-Headers", ascii "Content-Type"),
          (ascii "Access-Control-Max-Age", ascii "86400")], some 204, []⟩, server)) ∧
    (∀ (r' : Request) (server' : Server), r'.Method = MethodOptions →
      (r'.Path = ascii "/pubkey" ∨ r'.Path = ascii "/messages") →
      (r'.BasicAuth = none ∨
        (∃ user pwd', r'.BasicAuth = some (user, pwd') ∧
          server'.UserStore.users.get? user = none) ∨
        (∃ user pwd' u', r'.BasicAuth = some (user, pwd') ∧
          server'.UserStore.users.get? user = some u' ∧ u'.Authenticate L pwd' = false)) →
      ServeMux.ServeHTTP (Server.Start L) ResponseWriter.fresh r' server'
        = some (⟨[], some 401, []⟩, server')) := by
  have hm : (AddUserToContext r u).Method = MethodOptions := hmethod
  have key : ∀ next : Handler,
      Server.AuthenticateMiddleware L (coorsHandler.ServeHTTP { next := next })
        ResponseWriter.fresh r server
      = some (⟨[(ascii "Access-Control-Allow-Origin", ascii "*"),
          (ascii "Access-Control-Allow-Methods", ascii "POST, GET, OPTIONS"),
          (ascii "Access-Control-Allow-Headers", ascii "Content-Type"),
          (ascii "Access-Control-Max-Age", ascii "86400")], some 204, []⟩, server) := by
    intro next
    rw [AuthenticateMiddleware_pass L _ _ r server login pwd u hauth hfind hpwd]
    exact coorsHandler_preflight next _ server hm
  refine ⟨?_, key, ?_⟩
  · rcases hpath with hpath | hpath
    · simp only [ServeMux.ServeHTTP, hpath, Start_pubkey]
      exact key _
    · simp only [ServeMux.ServeHTTP, hpath, Start_messages]
      exact key _
  · intro r' server' _ hpath' hrej
    rcases hpath' with hpath' | hpath'
    · simp only [ServeMux.ServeHTTP, hpath', Start_pubkey]
      exact AuthenticateMiddleware_unauthorized L _ r' server' hrej
    · simp only [ServeMux.ServeHTTP, hpath', Start_messages]
      exact AuthenticateMiddleware_unauthorized L _ r' server' hrej

/-- Witness for C14 as amended: MEP sends a preflight request with its
credentials. -/
theorem Start_preflight_authenticated_witness :
    ServeMux.ServeHTTP (Server.Start sampleLibs) ResponseWriter.fresh samplePreflight
        sampleServer
      = some (⟨[(ascii "Access-Control-Allow-Origin", ascii "*"),
          (ascii "Access-Control-Allow-Methods", ascii "POST, GET, OPTIONS"),
          (ascii "Access-Control-Allow-Headers", ascii "Content-Type"),
          (ascii "Access-Control-Max-Age", ascii "86400")], some 204, []⟩, sampleServer) :=
  (Start_preflight_authenticated sampleLibs samplePreflight sampleServer
    (ascii "MEP") (ascii "HELLO") sampleMEP rfl (Or.inr rfl) rfl (by decide) (by decide)).1

/-- C14 as stated fails for a preflight request without credentials, which is
what a browser sends: the middleware stands in front of the CORS layer, so the
answer to `OPTIONS /messages` is 401 without any header. -/
theorem Start_preflight_anonymous_unauthorized :
    sampleAnonymousPreflight.Method = MethodOptions ∧
    sampleAnonymousPreflight.Path = ascii "/messages" ∧
    ServeMux.ServeHTTP (Server.Start sampleLibs) ResponseWriter.fresh
        sampleAnonymousPreflight sampleServer
      = some (⟨[], some 401, []⟩, sampleServer) := by
  refine ⟨rfl, rfl, ?_⟩
  simp only [ServeMux.ServeHTTP, sampleAnonymousPreflight, Start_messages]
  rfl

/-! ## The invariant of the message store -/

/-- Every entry of the store sits under the ID of its message. -/
theorem MemoryMessageStore.keyed_by_ID (store : MemoryMessageStore)
    (h : MemoryMessageStore.Reachable store) :
    ∀ k m, store.messages.get? k = some m → k = m.ID := by
  induction h with
  | make =>
    intro k m hk
    simp [MakeMemoryMessageStore, GoMap.get?, GoMap.empty] at hk
  | add store message _ ih =>
    intro k m hk
    cases hget : store.messages.get? message.ID with
    | some old =>
      have hAdd : (store.Add message).2 = store := by simp [MemoryMessageStore.Add, hget]
      rw [hAdd] at hk
      exact ih k m hk
    | none =>
      have hAdd : (store.Add message).2 = ⟨store.messages.set message.ID message⟩ := by
        simp [MemoryMessageStore.Add, hget]
      rw [hAdd] at hk
      by_cases hkm : k = message.ID
      · subst hkm
        rw [GoMap.get?_set_self] at hk
        rw [← Option.some.inj hk]
      · rw [GoMap.get?_set_ne _ _ _ _ hkm] at hk
        exact ih k m hk
  | deleteByID store messageID _ ih =>
    intro k m hk
    cases hget : store.messages.get? messageID with
    | none =>
      have hDel : (store.DeleteByID messageID).2 = store := by
        simp [MemoryMessageStore.DeleteByID, hget]
      rw [hDel] at hk
      exact ih k m hk
    | some old =>
      have hDel : (store.DeleteByID messageID).2 = ⟨store.messages.delete messageID⟩ := by
        simp [MemoryMessageStore.DeleteByID, hget]
      rw [hDel] at hk
      by_cases hkm : k = messageID
      · subst hkm
        rw [GoMap.get?_delete_self] at hk
        cases hk
      · rw [GoMap.get?_delete_ne _ _ _ hkm] at hk
        exact ih k m hk

/-- C18. In every store reached from `MakeMemoryMessageStore()` by calls of `Add`
and `DeleteByID`, each entry is stored under the ID of its message; so two
entries whose messages share an ID are one entry, and the IDs of the stored
messages are pairwise distinct. -/
theorem Reachable_IDs_unique (store : MemoryMessageStore)
    (h : MemoryMessageStore.Reachable store) :
    (∀ k m, store.messages.get? k = some m → k = m.ID) ∧
    (∀ k₁ k₂ m₁ m₂, store.messages.get? k₁ = some m₁ → store.messages.get? k₂ = some m₂ →
      m₁.ID = m₂.ID → k₁ = k₂ ∧ m₁ = m₂) ∧
    (store.messages.values.map (fun m => m.ID)).Nodup := by
  have hkey := MemoryMessageStore.keyed_by_ID store h
  refine ⟨hkey, ?_, ?_⟩
  · intro k₁ k₂ m₁ m₂ h₁ h₂ hid
    have hk : k₁ = k₂ := by rw [hkey k₁ m₁ h₁, hkey k₂ m₂ h₂, hid]
    subst hk
    rw [h₁] at h₂
    exact ⟨rfl, Option.some.inj h₂⟩
  · have hmap : store.messages.values.map (fun m => m.ID)
        = store.messages.entries.map Prod.fst := by
      simp only [GoMap.values, List.map_map]
      apply List.map_congr_left
      intro e he
      obtain ⟨k, m⟩ := e
      exact (hkey k m ((GoMap.lookup_eq_some_iff_mem _ store.messages.nodup k m).2 he)).symm
    rw [hmap]
    exact store.messages.nodup

/-- Witness for C18: the store of `TestAddDuplicate` after its first `Add`. -/
theorem Reachable_IDs_unique_witness :
    MemoryMessageStore.Reachable sampleStore ∧
    (∀ k m, sampleStore.messages.get? k = some m → k = m.ID) ∧
    (∀ k₁ k₂ m₁ m₂, sampleStore.messages.get? k₁ = some m₁ →
      sampleStore.messages.get? k₂ = some m₂ → m₁.ID = m₂.ID → k₁ = k₂ ∧ m₁ = m₂) ∧
    (sampleStore.messages.values.map (fun m => m.ID)).Nodup :=
  have h : MemoryMessageStore.Reachable sampleStore :=
    MemoryMessageStore.Reachable.add _ sampleMessage MemoryMessageStore.Reachable.make
  ⟨h, Reachable_IDs_unique sampleStore h⟩

/-! ## Retrieval decrypts whatever it gets (`client.go`) -/

/-- C13 fails on the code. `GetMessages` calls `DecryptContent` on every message
it receives, whatever the flag `Encrypted` says.  So a message with
`Encrypted == false` whose content is the base64 text of a ciphertext for the key
of the client does not come back unchanged: its content is replaced by the
decryption.  (The client reaches the server and the server accepts the
credentials as it reads them.) -/
theorem GetMessages_decrypts_unflagged (L : Libs) (cli : Client) (server : Server)
    (userID login pwd : GoString) (u : User) (msg : Message) (plain c : GoString)
    (hjson : JSONRoundTrip L msg) (hb64 : Base64Contract L)
    (hurl : L.URLPath (cli.ServerHost ++ ascii "/messages") = .ok (ascii "/messages"))
    (hcred : cutColon (cli.Principal.Username ++ colon :: cli.Principal.Password)
      = some (login, pwd))
    (hfind : server.UserStore.users.get? login = some u)
    (hpwd : u.Authenticate L pwd = true)
    (hall : (server.MessageStore.FindAllByUserID userID).1 = [msg])
    (hflag : msg.Encrypted = false)
    (hcontent : msg.Content = L.EncodeToString c)
    (hdec : L.DecryptPKCS1v15 cli.PrivateKey c = .ok plain) :
    (cli.GetMessages L userID server).1 = .ok [{ msg with Content := plain }] ∧
    (plain ≠ msg.Content → (cli.GetMessages L userID server).1 ≠ .ok [msg]) := by
  have hres := GetMessages_single L cli server userID login pwd u msg plain c hjson hb64 hurl
    hcred hfind hpwd hall hcontent hdec
  have hmsg : ({ msg with Content := plain, Encrypted := false } : Message)
      = { msg with Content := plain } := by rw [← hflag]
  rw [hmsg] at hres
  refine ⟨hres, ?_⟩
  intro hne heq
  rw [hres] at heq
  have h1 := List.head_eq_of_cons_eq (Except.ok.inj heq)
  exact hne (congrArg Message.Content h1)

/-- The code at the failing input of C13: ROOT retrieves a message from MEP that
is not flagged as encrypted and reads "!olleH"; `GetMessages` returns it with the
content "Hello!". -/
theorem GetMessages_decrypts_unflagged_witness :
    sampleUnflaggedMessage.Encrypted = false ∧
    (sampleClientROOT.GetMessages sampleLibs (ascii "ROOT") sampleServerUnflagged).1
      = .ok [{ sampleUnflaggedMessage with Content := ascii "Hello!" }] ∧
    (sampleClientROOT.GetMessages sampleLibs (ascii "ROOT") sampleServerUnflagged).1
      ≠ .ok [sampleUnflaggedMessage] :=
  have h := GetMessages_decrypts_unflagged sampleLibs sampleClientROOT sampleServerUnflagged
    (ascii "ROOT") (ascii "ROOT") (ascii "GOODBYE")
    sampleROOT sampleUnflaggedMessage (ascii "Hello!") (ascii "!olleH")
    (sampleLibs_json _) sampleLibs_base64 rfl (by decide) (by decide) (by decide) (by decide)
    rfl rfl rfl
  ⟨rfl, h.1, h.2 (by decide)⟩

/-! ## Loading or generating the key (`client.go`) -/

/-- The loop of `loadKey` needs no more turns than `data` has bytes: with that
much fuel or more the result is the same. -/
theorem loadKeyLoop_fuel (L : Libs) (random : Entropy) (keyPath : GoString) (fs : FileSystem)
    (fuel₁ fuel₂ : Nat) (data : GoString) (h₁ : data.length ≤ fuel₁)
    (h₂ : data.length ≤ fuel₂) :
    loadKeyLoop L random keyPath fs fuel₁ data = loadKeyLoop L random keyPath fs fuel₂ data := by
  induction fuel₁ generalizing fuel₂ data with
  | zero =>
    have hlen : data.length = 0 := Nat.le_zero.1 h₁
    cases fuel₂ with
    | zero => rfl
    | succ n => simp [loadKeyLoop, hlen]
  | succ n ih =>
    cases fuel₂ with
    | zero =>
      have hlen : data.length = 0 := Nat.le_zero.1 h₂
      simp [loadKeyLoop, hlen]
    | succ m =>
      by_cases hlen : data.length = 0
      · simp [loadKeyLoop, hlen]
      · simp only [loadKeyLoop, hlen, if_false]
        cases hdec : L.PEMDecode data with
        | none => rfl
        | some found =>
          obtain ⟨block, k⟩ := found
          by_cases hty : block.Type_ = ascii "RSA PRIVATE KEY"
          · simp only [hty, if_true]
          · simp only [hty, if_false]
            apply ih
            · rw [List.length_drop]; omega
            · rw [List.length_drop]; omega

/-- When key generation or the writing of the key file fails,
`generateAndSaveKey` returns an error value. -/
theorem generateAndSaveKey_error (L : Libs) (random : Entropy) (keyPath : GoString)
    (fs : FileSystem) (hfail : GenerationFails L random keyPath fs) :
    ∃ err, (generateAndSaveKey L random keyPath fs).1 = .error err := by
  rcases hfail with ⟨err, hgen⟩ | ⟨privKey, hgen, hcreate | hquota⟩
  · exact ⟨err, by simp [generateAndSaveKey, hgen]⟩
  · exact ⟨Error.library (ascii "permission denied"),
      by simp [generateAndSaveKey, hgen, FileSystem.Create, hcreate]⟩
  · by_cases hcreate : fs.createFails keyPath = true
    · exact ⟨Error.library (ascii "permission denied"),
        by simp [generateAndSaveKey, hgen, FileSystem.Create, hcreate]⟩
    · refine ⟨Error.library (ascii "no space left on device"), ?_⟩
      by_cases hfirst : (L.PEMEncode
          ⟨ascii "RSA PRIVATE KEY", L.MarshalPKCS1PrivateKey privKey⟩).length ≤ fs.quota
      · have hsecond : ¬ ((L.PEMEncode
              ⟨ascii "RSA PRIVATE KEY", L.MarshalPKCS1PrivateKey privKey⟩).length +
            (L.PEMEncode
              ⟨ascii "PUBLIC KEY", L.MarshalPKCS1PublicKey privKey.PublicKey⟩).length
            ≤ fs.quota) := by
          omega
        simp [generateAndSaveKey, hgen, FileSystem.Create, hcreate, FileSystem.Write,
          GoMap.get?_set_self, hfirst, hsecond]
      · simp [generateAndSaveKey, hgen, FileSystem.Create, hcreate, FileSystem.Write,
          GoMap.get?_set_self, hfirst]

/-- C16, as amended. When loading the key fails and key generation or the
writing of the key file then fails, `generateAndSaveKey` returns the failure to
`MakeClient` as an error value, and `MakeClient`, whose only result is the
client, panics with it.  Inside `loadKey`, where the file holds no PEM block, the
result of `generateAndSaveKey` is returned to the caller as it is. -/
theorem MakeClient_generation_failure (L : Libs) (random random' : Entropy)
    (keyPath serverHost : GoString) (fs : FileSystem)
    (hload : ∃ err, (loadKey L random keyPath fs).1 = .error err)
    (hfail : GenerationFails L random' keyPath (loadKey L random keyPath fs).2) :
    (∃ err, (generateAndSaveKey L random' keyPath (loadKey L random keyPath fs).2).1
      = .error err) ∧
    (MakeClient L random random' keyPath serverHost fs).1 = none ∧
    (∀ data, fs.ReadFile keyPath = .ok data → data ≠ [] → L.PEMDecode data = none →
      loadKey L random keyPath fs = generateAndSaveKey L random keyPath fs) := by
  obtain ⟨err, herr⟩ := generateAndSaveKey_error L random' keyPath _ hfail
  obtain ⟨e, hload⟩ := hload
  refine ⟨⟨err, herr⟩, ?_, ?_⟩
  · simp only [MakeClient]
    rcases hl : loadKey L random keyPath fs with ⟨res, fs'⟩
    rw [hl] at hload herr
    simp only at hload herr
    subst hload
    rcases hg : generateAndSaveKey L random' keyPath fs' with ⟨res', fs''⟩
    rw [hg] at herr
    simp only at herr
    subst herr
    simp [hg]
  · intro data hread hne hdec
    have hlen : data.length ≠ 0 := fun h => hne (List.length_eq_zero.1 h)
    simp only [loadKey, hread]
    cases hd : data.length with
    | zero => exact absurd hd hlen
    | succ n =>
      rw [← hd]
      simp [loadKeyLoop, hd, hdec]

/-- Witness for C16 as amended: no key file, and no file can be created. -/
theorem MakeClient_generation_failure_witness :
    (∃ err, (generateAndSaveKey sampleLibs (fun _ => 1) pathKey
      (loadKey sampleLibs (fun _ => 0) pathKey sampleReadOnlyFiles).2).1 = .error err) ∧
    (MakeClient sampleLibs (fun _ => 0) (fun _ => 1) pathKey (ascii "http://localhost:8080")
      sampleReadOnlyFiles).1 = none :=
  have h := MakeClient_generation_failure sampleLibs (fun _ => 0) (fun _ => 1) pathKey
    (ascii "http://localhost:8080") sampleReadOnlyFiles ⟨_, rfl⟩
    (Or.inr ⟨_, rfl, Or.inl rfl⟩)
  ⟨h.1, h.2.1⟩

/-- C16 as stated fails: with no key file and a path at which no file can be
created, `os.Create` fails inside `generateAndSaveKey`, which returns the error,
and `MakeClient` panics instead of returning it. -/
theorem MakeClient_panics :
    sampleReadOnlyFiles.files.get? pathKey = none ∧
    sampleReadOnlyFiles.createFails pathKey = true ∧
    (generateAndSaveKey sampleLibs (fun _ => 1) pathKey sampleReadOnlyFiles).1
      = .error (Error.library (ascii "permission denied")) ∧
    (MakeClient sampleLibs (fun _ => 0) (fun _ => 1) pathKey (ascii "http://localhost:8080")
      sampleReadOnlyFiles).1 = none :=
  ⟨rfl, rfl, rfl, rfl⟩

end Messenger
